import Mathlib

/-!
Verification development for the wotan rule-execution core.

The definitions below are a shallow embedding of `src/linter.ts` (the rule
runtime and the fix-application loop) and of the access-control resolver
(`getRestrictedElementAccessError` and its helpers).  Machine strings such as
rule names stay `String`; source positions are `Nat` character offsets;
TypeScript `undefined` becomes `Option`; a runtime `TypeError` (a dereference
of `undefined`) is modelled as the `none` value of an outer `Option` layer.
External collaborators (rule modules, the TypeScript checker, `tsutils`
helpers, `applyFixes`, `getDisabledRanges`) are either taken as explicit
function parameters or modelled by their documented behaviour.
-/

set_option autoImplicit false
set_option linter.unusedVariables false

namespace Wotan

/-- Severity of a lint finding (`src/types.ts`). -/
inductive Severity where
  | error
  | warning
  | suggestion
deriving DecidableEq, Repr

/-- One text replacement of a fix: replace the span from `start` (inclusive)
to `endPos` (exclusive) with `text`. -/
structure Replacement where
  start : Nat
  endPos : Nat
  text : String
deriving DecidableEq, Repr

/-- A fix: an ordered list of replacements. -/
structure Fix where
  replacements : List Replacement
deriving DecidableEq, Repr

/-- A resolved source position: absolute offset plus line and character,
as produced by `ts.getLineAndCharacterOfPosition`. -/
structure FailurePosition where
  position : Nat
  line : Nat
  character : Nat
deriving DecidableEq, Repr

/-- A reported lint failure (`Failure` in `src/types.ts`). -/
structure Failure where
  ruleName : String
  severity : Severity
  message : String
  start : FailurePosition
  endPos : FailurePosition
  fix : Option Fix
deriving DecidableEq, Repr

/-- A character range, mirroring `ts.TextRange` with fields `pos` and `end`. -/
structure TextRange where
  pos : Nat
  endPos : Nat
deriving DecidableEq, Repr

/-- The suppression test of `Linter.applyRules` (src/linter.ts lines 196-206):
`isDisabled(range)` looks the current rule name up in the disable map
(`disables.get(ruleName)`, `undefined` meaning no entry) and reports `true`
iff some disabled range satisfies
`range.end > disabledRange.pos && range.pos < disabledRange.end`.
The disable map itself is produced by `getDisabledRanges` (line-switches
module, an external collaborator here), so it is a parameter. -/
def isDisabled (disables : String → Option (List TextRange)) (ruleName : String)
    (range : TextRange) : Bool :=
  match disables ruleName with
  | none => false
  | some ruleDisables =>
      ruleDisables.any fun disabledRange =>
        decide (range.endPos > disabledRange.pos) && decide (range.pos < disabledRange.endPos)

/-- The `fix` argument of `addFailure`: `Replacement | Replacement[] | undefined`. -/
inductive FixArg where
  | undef
  | one (r : Replacement)
  | arr (rs : List Replacement)
deriving DecidableEq, Repr

/-- The fix normalisation performed inside `addFailure`
(src/linter.ts lines 187-193): `undefined` stays `undefined`, a single
replacement becomes a one-element fix, an empty array becomes `undefined`,
a non-empty array becomes a fix with those replacements. -/
def normalizeFix : FixArg → Option Fix
  | .undef => none
  | .one r => some ⟨[r]⟩
  | .arr rs => if rs = [] then none else some ⟨rs⟩

/-- One call of the rule context's `addFailure(pos, end, message, fix)`. -/
structure ReportCall where
  pos : Nat
  endPos : Nat
  message : String
  fix : FixArg
deriving DecidableEq, Repr

/-- The failure record pushed by `addFailure` (src/linter.ts lines 175-194).
`lineMap` stands for `ts.getLineAndCharacterOfPosition` on the source file. -/
def mkFailure (lineMap : Nat → Nat × Nat) (ruleName : String) (severity : Severity)
    (c : ReportCall) : Failure :=
  { ruleName := ruleName
    severity := severity
    message := c.message
    start := ⟨c.pos, (lineMap c.pos).1, (lineMap c.pos).2⟩
    endPos := ⟨c.endPos, (lineMap c.endPos).1, (lineMap c.endPos).2⟩
    fix := normalizeFix c.fix }

/-- A rule as executed during one pass of `applyRules`: its name, its
severity, and the sequence of `addFailure` calls its `apply()` makes. -/
structure ExecRule where
  ruleName : String
  severity : Severity
  calls : List ReportCall
deriving DecidableEq, Repr

/-- The failure collection of `Linter.applyRules` (src/linter.ts lines
126-207), at the granularity the suppression claims need: each rule runs in
order, each of its `addFailure` calls appends a failure to `result` unless
`isDisabled` holds for the call's range under the rule's name. -/
def applyRules (disables : String → Option (List TextRange)) (lineMap : Nat → Nat × Nat)
    (rules : List ExecRule) : List Failure :=
  rules.flatMap fun r =>
    r.calls.filterMap fun c =>
      if isDisabled disables r.ruleName ⟨c.pos, c.endPos⟩ then none
      else some (mkFailure lineMap r.ruleName r.severity c)

/-- A parsed source file handle.  Only the pieces the core reads are kept:
the source text (used by `calculateChangeRange`) and an identifying tag. -/
structure SourceFile where
  text : String
  tag : Nat
deriving DecidableEq, Repr

/-- Rule options are opaque to the core (`options: any`); a `Nat` stands in. -/
abbrev RuleOptions := Nat

/-- Global settings are opaque to the core (`Map<string, any>`). -/
abbrev GlobalSettings := Nat

/-- A type-checking program handle; the core only tests for its presence. -/
abbrev Program := Nat

/-- A loaded rule constructor (`RuleConstructor` of `src/types.ts`): its
`requiresTypeInformation` flag and its optional static `supports` predicate. -/
structure RuleCtor where
  requiresTypeInformation : Bool
  supports : Option (SourceFile → RuleOptions → GlobalSettings → Bool)

/-- Configured severity of a rule: `'off' | Severity`. -/
inductive ConfigSeverity where
  | off
  | sev (s : Severity)
deriving DecidableEq, Repr

/-- One entry of `EffectiveConfiguration.rules`. -/
structure RuleConfig where
  options : RuleOptions
  severity : ConfigSeverity
  rulesDirectories : List String
  rule : String
deriving DecidableEq, Repr

/-- The effective configuration: rule-name-keyed entries (a `Map` in the
source, hence iterated in insertion order with unique keys) and settings. -/
structure EffectiveConfiguration where
  rules : List (String × RuleConfig)
  settings : GlobalSettings

/-- A prepared rule (`PreparedRule` of src/linter.ts lines 210-215). -/
structure PreparedRule where
  ctor : RuleCtor
  options : RuleOptions
  ruleName : String
  severity : Severity

/-- The filtering loop body of `Linter.prepareRules` (src/linter.ts lines
105-124), processing the configured entries in order.  The second component
collects the rule names for which `logger.warn` was called (the actual
warning text interpolates the rule name into a fixed template).
`loadRule` stands for `this.ruleLoader.loadRule`. -/
def prepareRulesGo (loadRule : String → List String → Option RuleCtor)
    (sourceFile : SourceFile) (settings : GlobalSettings) (program : Option Program) :
    List (String × RuleConfig) → List PreparedRule × List String
  | [] => ([], [])
  | (ruleName, rc) :: rest =>
    match rc.severity with
    | .off => prepareRulesGo loadRule sourceFile settings program rest
    | .sev severity =>
      match loadRule rc.rule rc.rulesDirectories with
      | none => prepareRulesGo loadRule sourceFile settings program rest
      | some ctor =>
        if program.isNone && ctor.requiresTypeInformation then
          let r := prepareRulesGo loadRule sourceFile settings program rest
          (r.1, ruleName :: r.2)
        else
          match ctor.supports with
          | some f =>
            if f sourceFile rc.options settings then
              let r := prepareRulesGo loadRule sourceFile settings program rest
              (⟨ctor, rc.options, ruleName, severity⟩ :: r.1, r.2)
            else prepareRulesGo loadRule sourceFile settings program rest
          | none =>
            let r := prepareRulesGo loadRule sourceFile settings program rest
            (⟨ctor, rc.options, ruleName, severity⟩ :: r.1, r.2)

/-- `Linter.prepareRules(config, sourceFile, program)`: the prepared rule
list in configuration order, paired with the emitted type-information
warnings. -/
def prepareRules (loadRule : String → List String → Option RuleCtor)
    (config : EffectiveConfiguration) (sourceFile : SourceFile)
    (program : Option Program) : List PreparedRule × List String :=
  prepareRulesGo loadRule sourceFile config.settings program config.rules

/-- `ts.TextChangeRange`: a span plus the length of the new text. -/
structure ChangeRange where
  spanStart : Nat
  spanLength : Nat
  newLength : Nat
deriving DecidableEq, Repr

/-- The result of `applyFixes(source, fixes)` from `src/fix.ts` (not part of
the extracted sources, so the function itself stays a parameter): the number
of individually applied fixes, the fixed text, and the combined change range. -/
structure ApplyFixesResult where
  fixed : Nat
  result : String
  range : ChangeRange
deriving DecidableEq, Repr

/-- `processor.updateSource(content, range)` result. -/
structure UpdateSourceResult where
  transformed : String
  changeRange : Option ChangeRange

/-- The `AbstractProcessor` capability as used by the linter. -/
structure Processor where
  updateSource : String → ChangeRange → UpdateSourceResult
  postprocess : List Failure → List Failure

/-- The result of the caller's `updateFile(content, range)` callback. -/
structure UpdateFileResult where
  file : SourceFile
  program : Option Program

/-- The injected collaborators of `Linter`: the rule loader, the execution
of prepared rules (rules are arbitrary external code, abstracted as a
function of file, program, rules, and settings), `applyFixes`, and
`calculateChangeRange` from `src/utils.ts`. -/
structure LinterEnv where
  loadRule : String → List String → Option RuleCtor
  runRules : SourceFile → Option Program → List PreparedRule → GlobalSettings → List Failure
  applyFixes : String → List Fix → ApplyFixesResult
  calculateChangeRange : String → String → ChangeRange

/-- `Linter.getFailures` (src/linter.ts lines 89-103): prepare the rules,
return `[]` when none are active, otherwise run the rules and postprocess
the failures when a processor is present and the list is non-empty. -/
def getFailures (env : LinterEnv) (sourceFile : SourceFile)
    (config : EffectiveConfiguration) (program : Option Program)
    (processor : Option Processor) : List Failure :=
  let rules := (prepareRules env.loadRule config sourceFile program).1
  if rules.isEmpty then []
  else
    let failures := env.runRules sourceFile program rules config.settings
    match processor with
    | none => failures
    | some p => if failures.isEmpty then failures else p.postprocess failures

/-- `Linter.lintFile(file, config, program)` (src/linter.ts lines 40-42). -/
def lintFile (env : LinterEnv) (file : SourceFile) (config : EffectiveConfiguration)
    (program : Option Program) : List Failure :=
  getFailures env file config program none

/-- The loop state of `lintAndFix`: the current parsed file and program, the
current text `content`, the failures of the most recent lint pass, and the
running total of applied fixes. -/
structure LintState where
  file : SourceFile
  program : Option Program
  content : String
  failures : List Failure
  totalFixes : Nat

/-- `failures.map((f) => f.fix).filter((f) => f !== undefined)`
(src/linter.ts line 58). -/
def collectFixes (failures : List Failure) : List Fix :=
  failures.filterMap fun f => f.fix

/-- One executed iteration of the `lintAndFix` loop body (src/linter.ts
lines 63-79): apply the collected fixes, derive the new source (through the
processor when present, defaulting the change range via
`calculateChangeRange` against the old file text), re-parse through
`updateFile`, and run the next lint pass. -/
def lintStep (env : LinterEnv) (config : EffectiveConfiguration)
    (updateFile : String → ChangeRange → UpdateFileResult)
    (processor : Option Processor) (s : LintState) : LintState :=
  let fixed := env.applyFixes s.content (collectFixes s.failures)
  let content := fixed.result
  let upd : String × ChangeRange :=
    match processor with
    | some p =>
      let r := p.updateSource content fixed.range
      (r.transformed,
        match r.changeRange with
        | some cr => cr
        | none => env.calculateChangeRange s.file.text r.transformed)
    | none => (content, fixed.range)
  let res := updateFile upd.1 upd.2
  { file := res.file
    program := res.program
    content := content
    failures := getFailures env res.file config res.program processor
    totalFixes := s.totalFixes + fixed.fixed }

/-- The `for (let i = 0; i < iterations; ++i)` loop of `lintAndFix`
(src/linter.ts lines 55-80): stop on an empty failure list, then on an empty
collected-fix list, otherwise execute one iteration and continue. -/
def lintAndFixLoop (env : LinterEnv) (config : EffectiveConfiguration)
    (updateFile : String → ChangeRange → UpdateFileResult)
    (processor : Option Processor) : Nat → LintState → LintState
  | 0, s => s
  | n + 1, s =>
    if s.failures = [] then s
    else if collectFixes s.failures = [] then s
    else lintAndFixLoop env config updateFile processor n
      (lintStep env config updateFile processor s)

/-- `LintAndFixFileResult` of `src/types.ts`. -/
structure LintAndFixFileResult where
  content : String
  failures : List Failure
  fixes : Nat

/-- `Linter.lintAndFix` (src/linter.ts lines 44-86). -/
def lintAndFix (env : LinterEnv) (file : SourceFile) (content : String)
    (config : EffectiveConfiguration)
    (updateFile : String → ChangeRange → UpdateFileResult) (iterations : Nat)
    (program : Option Program) (processor : Option Processor) : LintAndFixFileResult :=
  let s0 : LintState :=
    { file := file, program := program, content := content
      failures := getFailures env file config program processor, totalFixes := 0 }
  let s := lintAndFixLoop env config updateFile processor iterations s0
  { content := s.content, failures := s.failures, fixes := s.totalFixes }

/-- The number of loop iterations `lintAndFix` actually executes from state
`s` with `n` iterations remaining: zero once a pass has no failures or no
collectible fixes, otherwise one more than the count after one step. -/
def stopCount (env : LinterEnv) (config : EffectiveConfiguration)
    (updateFile : String → ChangeRange → UpdateFileResult)
    (processor : Option Processor) : Nat → LintState → Nat
  | 0, _ => 0
  | n + 1, s =>
    if s.failures = [] then 0
    else if collectFixes s.failures = [] then 0
    else stopCount env config updateFile processor n
      (lintStep env config updateFile processor s) + 1

/-- The `ts.SyntaxKind` values the access-control resolver inspects, plus
the modifier keywords and a catch-all `other` for every remaining kind. -/
inductive SyntaxKind where
  | thisKeyword
  | superKeyword
  | computedPropertyName
  | expressionWithTypeArguments
  | decorator
  | parameter
  | classDeclaration
  | classExpression
  | propertyDeclaration
  | methodDeclaration
  | methodSignature
  | getAccessor
  | setAccessor
  | constructorDecl
  | sourceFile
  | functionDeclaration
  | functionExpression
  | arrowFunction
  | enumDeclaration
  | moduleDeclaration
  | callSignature
  | constructSignature
  | constructorType
  | functionType
  | elementAccessExpression
  | abstractKeyword
  | staticKeyword
  | privateKeyword
  | protectedKeyword
  | other
deriving DecidableEq, Repr

/-- A class-like declaration node (`ts.ClassLikeDeclaration`): an identity
tag (TypeScript compares these nodes by object identity) and its text span. -/
structure ClassLikeDeclaration where
  id : Nat
  pos : Nat
  endPos : Nat
deriving DecidableEq, Repr

/-- One declaration of a symbol: its kind, its modifier list
(`undefined` when absent), and its parent class-like declaration
(every declaration the resolver meets is cast to a class member). -/
structure Declaration where
  kind : SyntaxKind
  modifiers : Option (List SyntaxKind)
  parent : ClassLikeDeclaration
deriving DecidableEq, Repr

/-- A `ts.Symbol` as the resolver reads it: `declarations` may be absent. -/
structure Symbol where
  declarations : Option (List Declaration)
deriving DecidableEq, Repr

/-- A `ts.Type` as traversed by `hasBase`:
`obj` is a plain object/class/interface type carrying its identity, the
declaration tags of its symbol, and its resolved base types; `intersection`
carries its member types; `reference` is a type reference with its `target`;
`typeParam` is a type parameter with its optional constraint. -/
inductive Ty where
  | obj (id : Nat) (symbolDeclIds : List Nat) (baseTypes : List Ty)
  | intersection (types : List Ty)
  | reference (target : Ty)
  | typeParam (id : Nat) (constraint : Option Ty)

mutual

/-- Structural equality of `Ty` values.  A `Ty` value stands for one type
object of the checker, so equality of values models object identity. -/
def Ty.beq : Ty → Ty → Bool
  | .obj i ds bs, .obj j es cs => i == j && ds == es && Ty.beqList bs cs
  | .intersection ts, .intersection us => Ty.beqList ts us
  | .reference t, .reference u => Ty.beq t u
  | .typeParam i c, .typeParam j d => i == j && Ty.beqOpt c d
  | _, _ => false

/-- See `Ty.beq`. -/
def Ty.beqList : List Ty → List Ty → Bool
  | [], [] => true
  | t :: ts, u :: us => Ty.beq t u && Ty.beqList ts us
  | _, _ => false

/-- See `Ty.beq`. -/
def Ty.beqOpt : Option Ty → Option Ty → Bool
  | none, none => true
  | some t, some u => Ty.beq t u
  | _, _ => false

end

/-- The declaration tags of a type's symbol (`type.symbol!.declarations!`);
only `obj` types expose them, matching the one call site, which only ever
queries unwrapped reference targets. -/
def Ty.symbolDeclIds : Ty → List Nat
  | .obj _ ds _ => ds
  | _ => []

mutual

/-- The recursion of `hasBase` (part_000 lines 165-176): unwrap a type
reference to its target and test the needle there, then recurse through
resolved base types (`getBaseTypes`, available on plain object types) and
through intersection members.  `hasBaseList` is the `some(recur)` over a
list of types. -/
def hasBaseRecur {α : Type} (check : Ty → α → Bool) (needle : α) : Ty → Bool
  | .reference (.obj i ds bases) =>
      check (.obj i ds bases) needle || hasBaseList check needle bases
  | .reference (.intersection types) =>
      check (.intersection types) needle || hasBaseList check needle types
  | .reference target => check target needle
  | .obj _ _ bases => hasBaseList check needle bases
  | .intersection types => hasBaseList check needle types
  | .typeParam _ _ => false

/-- See `hasBaseRecur`. -/
def hasBaseList {α : Type} (check : Ty → α → Bool) (needle : α) : List Ty → Bool
  | [] => false
  | t :: ts => hasBaseRecur check needle t || hasBaseList check needle ts

end

/-- `hasBase(type, needle, check)` (part_000 lines 165-176). -/
def hasBase {α : Type} (type : Ty) (needle : α) (check : Ty → α → Bool) : Bool :=
  hasBaseRecur check needle type

/-- `isIdentical(a, b)` (part_000 lines 178-180): reference identity,
modelled as equality of the `Ty` values (distinct type objects carry
distinct identity tags). -/
def isIdentical (a b : Ty) : Bool :=
  Ty.beq a b

/-- `typeContainsDeclaration(type, declaration)` (part_000 lines 182-184):
the type's symbol's declaration list contains the given declaration. -/
def typeContainsDeclaration (type : Ty) (declaration : ClassLikeDeclaration) : Bool :=
  type.symbolDeclIds.contains declaration.id

/-- A this-parameter candidate: whether its name is the `this` identifier
(`isThisParameter` of tsutils) and its optional declared type, already
resolved through `checker.getTypeFromTypeNode`. -/
structure Parameter where
  isThis : Bool
  type : Option Ty

/-- One node of an ancestor chain.  `modifiers` feeds `hasModifier`;
`classDecl` is the node viewed as a class-like declaration (TypeScript casts
are unchecked, so every node carries one, meaningful only for class kinds);
`parameters` feeds the this-parameter lookup on function-like nodes;
`isExternalModule` matters only for `sourceFile` nodes. -/
structure NodeInfo where
  kind : SyntaxKind
  modifiers : Option (List SyntaxKind) := none
  classDecl : ClassLikeDeclaration := ⟨0, 0, 0⟩
  parameters : List Parameter := []
  isExternalModule : Bool := false

/-- The element access expression under scrutiny: the kind of
`node.expression`, the node's own span, and its ancestor chain
(`node.parent`, then that node's parent, and so on). -/
structure ElementAccessNode where
  exprKind : SyntaxKind
  pos : Nat
  endPos : Nat
  ancestors : List NodeInfo

/-- The ancestor chain starting at the access node itself, as walked by
`isStaticSuper(node)`. -/
def ElementAccessNode.chain (n : ElementAccessNode) : List NodeInfo :=
  ⟨.elementAccessExpression, none, ⟨0, 0, 0⟩, [], false⟩ :: n.ancestors

/-- `hasModifier(modifiers, kind)` of tsutils: `false` when the modifier
list is absent, otherwise a membership test. -/
def hasModifier (modifiers : Option (List SyntaxKind)) (kind : SyntaxKind) : Bool :=
  match modifiers with
  | none => false
  | some ms => ms.contains kind

/-- `isFunctionScopeBoundary` of tsutils (external collaborator, modelled
from its source of the wotan era): function-like declarations and types,
classes, enums and modules are boundaries; a source file is one iff it is an
external module. -/
def isFunctionScopeBoundary (n : NodeInfo) : Bool :=
  match n.kind with
  | .functionExpression => true
  | .arrowFunction => true
  | .constructorDecl => true
  | .moduleDeclaration => true
  | .classDeclaration => true
  | .classExpression => true
  | .enumDeclaration => true
  | .methodDeclaration => true
  | .methodSignature => true
  | .functionDeclaration => true
  | .getAccessor => true
  | .setAccessor => true
  | .callSignature => true
  | .constructSignature => true
  | .constructorType => true
  | .functionType => true
  | .sourceFile => n.isExternalModule
  | _ => false

/-- The derived modifier flags the resolver tests: abstract, static,
private, protected (the four bits of `ts.ModifierFlags` it reads). -/
structure ModifierFlags where
  isAbstract : Bool
  isStatic : Bool
  isPrivate : Bool
  isProtected : Bool
deriving DecidableEq, Repr

/-- `ts.ModifierFlags.None` restricted to the four tracked bits. -/
def ModifierFlags.noFlags : ModifierFlags :=
  ⟨false, false, false, false⟩

/-- Bitwise union of modifier flags. -/
def ModifierFlags.union (a b : ModifierFlags) : ModifierFlags :=
  ⟨a.isAbstract || b.isAbstract, a.isStatic || b.isStatic,
   a.isPrivate || b.isPrivate, a.isProtected || b.isProtected⟩

/-- `ts.getCombinedModifierFlags(decl)` restricted to the four tracked
bits: each bit holds iff the declaration's modifier list carries the
corresponding keyword. -/
def getCombinedModifierFlags (d : Declaration) : ModifierFlags :=
  ⟨hasModifier d.modifiers .abstractKeyword, hasModifier d.modifiers .staticKeyword,
   hasModifier d.modifiers .privateKeyword, hasModifier d.modifiers .protectedKeyword⟩

/-- `getModifierFlagsOfSymbol` (part_000 lines 226-230): `None` when the
symbol has no declaration list, otherwise the union over all declarations. -/
def getModifierFlagsOfSymbol (symbol : Symbol) : ModifierFlags :=
  match symbol.declarations with
  | none => ModifierFlags.noFlags
  | some ds => ds.foldl (fun flags d => flags.union (getCombinedModifierFlags d))
      ModifierFlags.noFlags

/-- Kinds of declarations that live on the prototype: methods, method
signatures and accessors (the `continue` cases of part_000 lines 137-141). -/
def isPrototypeKind : SyntaxKind → Bool
  | .methodDeclaration => true
  | .methodSignature => true
  | .getAccessor => true
  | .setAccessor => true
  | _ => false

/-- `hasNonPrototypeDeclaration(symbol)` (part_000 lines 134-146): some
declaration is not a method/accessor.  Iterating `symbol.declarations!`
throws when the list is absent, hence the `Option`. -/
def hasNonPrototypeDeclaration (symbol : Symbol) : Option Bool :=
  symbol.declarations.map fun ds => ds.any fun d => !isPrototypeKind d.kind

/-- `isStaticSuper(node)` (part_000 lines 100-132), walking the ancestor
chain whose head is the current node.  Computed property names and heritage
clause expressions jump to `node.parent!.parent!.parent!`; a decorator jumps
to `node.parent.parent!` when it decorates a class, to
`node.parent.parent!.parent!.parent!` when it decorates a parameter, and to
`node.parent.parent!.parent!` otherwise; member declarations answer their
`static` modifier; a constructor answers `false`; everything else steps to
the parent.  Walking past the root dereferences `undefined` (result
`none`). -/
def isStaticSuper : List NodeInfo → Option Bool
  | [] => none
  | node :: rest =>
    match node.kind with
    | .computedPropertyName =>
      -- node.parent!.parent!.parent!: three levels up; a missing parent on
      -- the way (fewer ancestors) dereferences undefined
      match rest with
      | _ :: _ :: r => isStaticSuper r
      | _ => none
    | .expressionWithTypeArguments =>
      match rest with
      | _ :: _ :: r => isStaticSuper r
      | _ => none
    | .decorator =>
      match rest with
      | [] => none
      | parent :: rest2 =>
        match parent.kind with
        -- class decorator: node.parent.parent! (two levels up)
        | .classDeclaration => isStaticSuper rest2
        | .classExpression => isStaticSuper rest2
        -- parameter decorator: node.parent.parent!.parent!.parent!
        | .parameter =>
          match rest2 with
          | _ :: _ :: r => isStaticSuper r
          | _ => none
        -- class element decorator: node.parent.parent!.parent!
        | _ =>
          match rest2 with
          | _ :: r => isStaticSuper r
          | _ => none
    | .propertyDeclaration => some (hasModifier node.modifiers .staticKeyword)
    | .methodDeclaration => some (hasModifier node.modifiers .staticKeyword)
    | .getAccessor => some (hasModifier node.modifiers .staticKeyword)
    | .setAccessor => some (hasModifier node.modifiers .staticKeyword)
    | .constructorDecl => some false
    | _ => isStaticSuper rest

/-- `getThisParameterFromContext(node)` (part_000 lines 186-224): walk the
ancestor chain for an explicit `this` parameter.  Plain functions and
methods answer their first parameter when it is a `this` parameter
(`undefined` otherwise); classes, accessors, enums and the source file
answer `undefined`; computed property names, heritage clause expressions
and decorators jump exactly as in `isStaticSuper`.  The outer `Option` is
the running-past-the-root crash. -/
def getThisParameterFromContext : List NodeInfo → Option (Option Parameter)
  | [] => none
  | node :: rest =>
    match node.kind with
    | .functionDeclaration =>
      some (match node.parameters with
            | [] => none
            | p :: _ => if p.isThis then some p else none)
    | .functionExpression =>
      some (match node.parameters with
            | [] => none
            | p :: _ => if p.isThis then some p else none)
    | .methodDeclaration =>
      some (match node.parameters with
            | [] => none
            | p :: _ => if p.isThis then some p else none)
    | .classDeclaration => some none
    | .classExpression => some none
    | .setAccessor => some none
    | .getAccessor => some none
    | .enumDeclaration => some none
    | .sourceFile => some none
    | .computedPropertyName =>
      match rest with
      | _ :: _ :: r => getThisParameterFromContext r
      | _ => none
    | .expressionWithTypeArguments =>
      match rest with
      | _ :: _ :: r => getThisParameterFromContext r
      | _ => none
    | .decorator =>
      match rest with
      | [] => none
      | parent :: rest2 =>
        match parent.kind with
        | .classDeclaration => getThisParameterFromContext rest2
        | .classExpression => getThisParameterFromContext rest2
        | .parameter =>
          match rest2 with
          | _ :: _ :: r => getThisParameterFromContext r
          | _ => none
        | _ =>
          match rest2 with
          | _ :: r => getThisParameterFromContext r
          | _ => none
    | _ => getThisParameterFromContext rest

/-- `getEnclosingClassOfAbstractPropertyAccess(node)` (part_000 lines
148-163): ascend to the first function scope boundary; a class answers
itself, a constructor answers its parent class (`undefined` when the
constructor has no parent), anything else answers `undefined`.  The outer
`Option` is the running-past-the-root crash. -/
def getEnclosingClassOfAbstractPropertyAccess :
    List NodeInfo → Option (Option ClassLikeDeclaration)
  | [] => none
  | node :: rest =>
    if isFunctionScopeBoundary node then
      match node.kind with
      | .classDeclaration => some (some node.classDecl)
      | .classExpression => some (some node.classDecl)
      | .constructorDecl =>
        match rest with
        | [] => some none
        | parent :: _ => some (some parent.classDecl)
      | _ => some none
    else getEnclosingClassOfAbstractPropertyAccess rest

/-- The checker capabilities the resolver uses:
`instanceType` is tsutils' `getInstanceTypeOfClassLikeDeclaration`, keyed by
the class declaration's identity tag. -/
structure Checker where
  instanceType : Nat → Ty

/-- `printClass(declaration, checker)` (part_000 lines 81-83): the instance
type of the declaration (its rendering through `checker.typeToString` is
left abstract; error payloads carry the type itself). -/
def printClass (declaration : ClassLikeDeclaration) (checker : Checker) : Ty :=
  checker.instanceType declaration.id

/-- `findEnclosingClass(node, baseClasses, checker)` (part_000 lines
64-79): ascend from `node`; at each class, answer its instance type when it
has every base class in its base reachability (`hasBase` with
`typeContainsDeclaration`), otherwise keep ascending; answer `undefined`
upon reaching the source file.  The outer `Option` is the
running-past-the-root crash. -/
def findEnclosingClass (checker : Checker) (baseClasses : List ClassLikeDeclaration) :
    List NodeInfo → Option (Option Ty)
  | [] => none
  | node :: rest =>
    match node.kind with
    | .classDeclaration =>
      let declaredType := checker.instanceType node.classDecl.id
      if baseClasses.all fun baseClass => hasBase declaredType baseClass typeContainsDeclaration
      then some (some declaredType)
      else findEnclosingClass checker baseClasses rest
    | .classExpression =>
      let declaredType := checker.instanceType node.classDecl.id
      if baseClasses.all fun baseClass => hasBase declaredType baseClass typeContainsDeclaration
      then some (some declaredType)
      else findEnclosingClass checker baseClasses rest
    | .sourceFile => some none
    | _ => findEnclosingClass checker baseClasses rest

/-- `getEnclosingClassFromThisParameter(node, baseClasses, checker)`
(part_000 lines 85-99): find an explicit `this` parameter with a type; a
type parameter is replaced by its constraint (`undefined` constraint means
no answer); a type reference is unwrapped to its target; the result is the
type when it reaches every base class, `undefined` otherwise. -/
def getEnclosingClassFromThisParameter (checker : Checker)
    (baseClasses : List ClassLikeDeclaration) (chain : List NodeInfo) :
    Option (Option Ty) :=
  match getThisParameterFromContext chain with
  | none => none
  | some thisParameter =>
    match thisParameter with
    | none => some none
    | some p =>
      match p.type with
      | none => some none
      | some t0 =>
        let unwrapped : Option Ty :=
          match t0 with
          | .typeParam _ constraint => constraint
          | _ => some t0
        match unwrapped with
        | none => some none
        | some t1 =>
          let thisType :=
            match t1 with
            | .reference target => target
            | _ => t1
          some (if baseClasses.all fun baseClass =>
                  hasBase thisType baseClass typeContainsDeclaration
                then some thisType else none)

/-- The violation messages of the resolver, one constructor per `return`
site of a message in part_000 (the message strings interpolate `name` and a
printed type; the payloads carry those data). -/
inductive AccessError where
  | abstractPropertyInit (name : String) (classType : Ty)
  | superNonPrototype
  | superAbstract (name : String) (classType : Ty)
  | visibility (name : String) (typeShown : Ty) (isPrivate : Bool)
  | protectedThroughInstance (name : String) (classType : Ty)

/-- `failVisibility(property, typeString, isPrivate)` (part_000 lines
60-62). -/
def failVisibility (property : String) (typeShown : Ty) (isPrivate : Bool) : AccessError :=
  .visibility property typeShown isPrivate

/-- Outcome of one of the three check blocks of
`getRestrictedElementAccessError`: a thrown `TypeError`, a fall-through to
the next block, or an early `return` with a message. -/
inductive CheckStep where
  | crash
  | fallthrough
  | failWith (e : AccessError)

/-- The abstract-during-construction block (part_000 lines 21-28): for a
`this` access to an abstract symbol with a non-prototype declaration,
fail when an enclosing class is found for the access's parent. -/
def abstractThisCheck (checker : Checker) (symbol : Symbol) (name : String)
    (node : ElementAccessNode) (flags : ModifierFlags) : CheckStep :=
  if node.exprKind = .thisKeyword ∧ flags.isAbstract then
    match hasNonPrototypeDeclaration symbol with
    | none => .crash
    | some false => .fallthrough
    | some true =>
      match getEnclosingClassOfAbstractPropertyAccess node.ancestors with
      | none => .crash
      | some none => .fallthrough
      | some (some enclosingClass) =>
        .failWith (.abstractPropertyInit name (printClass enclosingClass checker))
  else .fallthrough

/-- The `super` block (part_000 lines 29-37): for a `super` access to a
non-static symbol outside a static context, fail on any non-prototype
declaration, else fail when the symbol is abstract and every declaration
carries the `abstract` modifier (the message prints the first declaration's
parent class). -/
def superCheck (checker : Checker) (symbol : Symbol) (name : String)
    (node : ElementAccessNode) (flags : ModifierFlags) : CheckStep :=
  if node.exprKind = .superKeyword ∧ flags.isStatic = false then
    match isStaticSuper node.chain with
    | none => .crash
    | some true => .fallthrough
    | some false =>
      match hasNonPrototypeDeclaration symbol with
      | none => .crash
      | some true => .failWith .superNonPrototype
      | some false =>
        if flags.isAbstract then
          match symbol.declarations with
          | none => .crash
          | some ds =>
            if ds.all fun d => hasModifier d.modifiers .abstractKeyword then
              match ds with
              | [] => .crash
              | d0 :: _ => .failWith (.superAbstract name (printClass d0.parent checker))
            else .fallthrough
        else .fallthrough
  else .fallthrough

/-- The visibility block (part_000 lines 39-57): public members pass; a
private member must be accessed within the span of its declaring class (the
first declaration's parent); a protected member needs an enclosing class
context (lexical, or from an explicit `this` parameter for non-static
members), and a non-static protected member additionally needs the
left-hand-side type to reach that context through `hasBase` with
`isIdentical`. -/
def visibilityCheck (checker : Checker) (symbol : Symbol) (name : String)
    (node : ElementAccessNode) (lhsType : Ty) (flags : ModifierFlags) :
    Option (Option AccessError) :=
  if flags.isPrivate = false ∧ flags.isProtected = false then some none
  else if flags.isPrivate then
    match symbol.declarations with
    | none => none
    | some [] => none
    | some (d0 :: _) =>
      let declaringClass := d0.parent
      if node.pos < declaringClass.pos ∨ node.endPos > declaringClass.endPos then
        some (some (failVisibility name (printClass declaringClass checker) true))
      else some none
  else
    match symbol.declarations with
    | none => none
    | some ds =>
      let declaringClasses := ds.map fun d => d.parent
      match findEnclosingClass checker declaringClasses node.ancestors with
      | none => none
      | some found =>
        let resolved : Option (Option Ty) :=
          match found with
          | some t => some (some t)
          | none =>
            if flags.isStatic = false then
              getEnclosingClassFromThisParameter checker declaringClasses node.ancestors
            else some none
        match resolved with
        | none => none
        | some none => some (some (failVisibility name lhsType false))
        | some (some enclosingClass) =>
          if flags.isStatic = false ∧ hasBase lhsType enclosingClass isIdentical = false then
            some (some (.protectedThroughInstance name enclosingClass))
          else some none

/-- `getRestrictedElementAccessError(checker, symbol, name, node, lhsType)`
(part_000 lines 12-58): the three blocks in priority order.  `none` is a
thrown `TypeError`; `some none` permits the access; `some (some e)` is a
violation. -/
def getRestrictedElementAccessError (checker : Checker) (symbol : Symbol)
    (name : String) (node : ElementAccessNode) (lhsType : Ty) :
    Option (Option AccessError) :=
  let flags := getModifierFlagsOfSymbol symbol
  match abstractThisCheck checker symbol name node flags with
  | .crash => none
  | .failWith e => some (some e)
  | .fallthrough =>
    match superCheck checker symbol name node flags with
    | .crash => none
    | .failWith e => some (some e)
    | .fallthrough => visibilityCheck checker symbol name node lhsType flags

/-- `isDisabled` answers `false` exactly when no disabled range of the rule
strictly overlaps the queried half-open range. -/
theorem isDisabled_eq_false_iff (disables : String → Option (List TextRange))
    (rn : String) (range : TextRange) :
    isDisabled disables rn range = false ↔
      ∀ dr ∈ (disables rn).getD [], ¬(dr.pos < range.endPos ∧ range.pos < dr.endPos) := by
  unfold isDisabled
  cases h : disables rn with
  | none => simp
  | some l =>
    rw [← Bool.not_eq_true, List.any_eq_true]
    simp

/-- Claim C9: `lintAndFix` with `iterations = 0` returns exactly the failure
list of a single `lintFile` call on the same file, configuration and
optional program, with the content unchanged and a fix count of zero. -/
theorem lintAndFix_zero_iterations (env : LinterEnv) (file : SourceFile)
    (content : String) (config : EffectiveConfiguration)
    (updateFile : String → ChangeRange → UpdateFileResult) (program : Option Program) :
    lintAndFix env file content config updateFile 0 program none =
      ⟨content, lintFile env file config program, 0⟩ :=
  rfl

/-- Claim C2: a failure reported through `addFailure` during a pass appears
in the pass's output iff its half-open range strictly overlaps no disabled
range recorded for its rule; in particular a failure that at most touches
every disabled range at an endpoint is reported, and a failure wholly inside
some disabled range is never present. -/
theorem addFailure_suppression (disables : String → Option (List TextRange))
    (lineMap : Nat → Nat × Nat) (rules : List ExecRule) (r : ExecRule)
    (c : ReportCall) (hr : r ∈ rules) (hc : c ∈ r.calls) :
    (mkFailure lineMap r.ruleName r.severity c ∈ applyRules disables lineMap rules ↔
      ∀ dr ∈ (disables r.ruleName).getD [], ¬(dr.pos < c.endPos ∧ c.pos < dr.endPos))
    ∧ ((∀ dr ∈ (disables r.ruleName).getD [], c.endPos ≤ dr.pos ∨ dr.endPos ≤ c.pos) →
        mkFailure lineMap r.ruleName r.severity c ∈ applyRules disables lineMap rules)
    ∧ ((∃ dr ∈ (disables r.ruleName).getD [],
          dr.pos ≤ c.pos ∧ c.endPos ≤ dr.endPos ∧ c.pos < c.endPos) →
        mkFailure lineMap r.ruleName r.severity c ∉ applyRules disables lineMap rules) := by
  have main : mkFailure lineMap r.ruleName r.severity c ∈ applyRules disables lineMap rules ↔
      ∀ dr ∈ (disables r.ruleName).getD [], ¬(dr.pos < c.endPos ∧ c.pos < dr.endPos) := by
    rw [← isDisabled_eq_false_iff disables r.ruleName ⟨c.pos, c.endPos⟩]
    constructor
    · intro hmem
      rw [applyRules, List.mem_flatMap] at hmem
      obtain ⟨r', hr', hmem'⟩ := hmem
      rw [List.mem_filterMap] at hmem'
      obtain ⟨c', hc', heq⟩ := hmem'
      by_cases hd : isDisabled disables r'.ruleName ⟨c'.pos, c'.endPos⟩ = true
      · rw [if_pos hd] at heq
        exact absurd heq (by simp)
      · rw [if_neg hd] at heq
        rw [Option.some_inj] at heq
        have hname : r'.ruleName = r.ruleName := congrArg Failure.ruleName heq
        have hpos : c'.pos = c.pos := congrArg (fun f => f.start.position) heq
        have hend : c'.endPos = c.endPos := congrArg (fun f => f.endPos.position) heq
        rw [hname, hpos, hend] at hd
        exact Bool.not_eq_true _ ▸ (Bool.eq_false_iff.mpr hd)
    · intro hfalse
      rw [applyRules, List.mem_flatMap]
      refine ⟨r, hr, ?_⟩
      rw [List.mem_filterMap]
      refine ⟨c, hc, ?_⟩
      rw [if_neg (by rw [hfalse]; exact Bool.false_ne_true)]
  refine ⟨main, ?_, ?_⟩
  · intro htouch
    refine main.mpr fun dr hdr => ?_
    rcases htouch dr hdr with h | h
    · exact fun hov => absurd hov.1 (by omega)
    · exact fun hov => absurd hov.2 (by omega)
  · intro hinside
    obtain ⟨dr, hdr, h1, h2, h3⟩ := hinside
    intro hmem
    exact absurd (main.mp hmem dr hdr) (by simp; omega)

/-- The decision `prepareRules` makes for one configured entry, as a
per-entry function (`none` = the rule is skipped). -/
def prepareRuleEntry (loadRule : String → List String → Option RuleCtor)
    (sourceFile : SourceFile) (settings : GlobalSettings) (program : Option Program)
    (entry : String × RuleConfig) : Option PreparedRule :=
  match entry.2.severity with
  | .off => none
  | .sev severity =>
    match loadRule entry.2.rule entry.2.rulesDirectories with
    | none => none
    | some ctor =>
      if program.isNone && ctor.requiresTypeInformation then none
      else
        match ctor.supports with
        | some f =>
          if f sourceFile entry.2.options settings then
            some ⟨ctor, entry.2.options, entry.1, severity⟩
          else none
        | none => some ⟨ctor, entry.2.options, entry.1, severity⟩

/-- The warning decision `prepareRules` makes for one configured entry
(`some` = `logger.warn` is called for this rule name). -/
def prepareRuleWarn (loadRule : String → List String → Option RuleCtor)
    (program : Option Program) (entry : String × RuleConfig) : Option String :=
  match entry.2.severity with
  | .off => none
  | .sev _ =>
    match loadRule entry.2.rule entry.2.rulesDirectories with
    | none => none
    | some ctor =>
      if program.isNone && ctor.requiresTypeInformation then some entry.1 else none

/-- The preparation loop is the entry-wise decision mapped over the
configuration: prepared rules and warnings both come out in entry order. -/
theorem prepareRulesGo_eq_filterMap (L : String → List String → Option RuleCtor)
    (F : SourceFile) (S : GlobalSettings) (P : Option Program) :
    ∀ l : List (String × RuleConfig),
      prepareRulesGo L F S P l =
        (l.filterMap (prepareRuleEntry L F S P), l.filterMap (prepareRuleWarn L P)) := by
  intro l
  induction l with
  | nil => rfl
  | cons hd tl ih =>
    obtain ⟨rn, rc⟩ := hd
    simp only [prepareRulesGo, prepareRuleEntry, prepareRuleWarn, List.filterMap_cons, ih]
    cases hsev : rc.severity with
    | off => rfl
    | sev s =>
      cases hload : L rc.rule rc.rulesDirectories with
      | none => rfl
      | some ctor =>
        by_cases hreq : (P.isNone && ctor.requiresTypeInformation) = true
        · simp [hreq]
        · rw [Bool.not_eq_true] at hreq
          cases hsup : ctor.supports with
          | none => simp [hreq, hsup]
          | some f =>
            by_cases hf : f F rc.options S = true
            · simp [hreq, hsup, hf]
            · simp [hreq, hsup, hf]

/-- A prepared entry keeps its configuration key as `ruleName`. -/
theorem prepareRuleEntry_name (L : String → List String → Option RuleCtor)
    (F : SourceFile) (S : GlobalSettings) (P : Option Program)
    (entry : String × RuleConfig) (pr : PreparedRule)
    (h : prepareRuleEntry L F S P entry = some pr) : pr.ruleName = entry.1 := by
  unfold prepareRuleEntry at h
  repeat' split at h
  all_goals try exact Option.noConfusion h
  all_goals injection h with h
  all_goals rw [← h]

/-- A warning carries its configuration key. -/
theorem prepareRuleWarn_name (L : String → List String → Option RuleCtor)
    (P : Option Program) (entry : String × RuleConfig) (w : String)
    (h : prepareRuleWarn L P entry = some w) : w = entry.1 := by
  unfold prepareRuleWarn at h
  repeat' split at h
  all_goals try exact Option.noConfusion h
  all_goals injection h with h
  all_goals rw [← h]

/-- With `Nodup` keys, a key determines its configuration entry. -/
theorem key_nodup_eq {α : Type} : ∀ (l : List (String × α)),
    (l.map Prod.fst).Nodup → ∀ {rn : String} {rc rc' : α},
    (rn, rc) ∈ l → (rn, rc') ∈ l → rc = rc' := by
  intro l
  induction l with
  | nil => intro _ rn rc rc' h; exact absurd h (List.not_mem_nil _)
  | cons hd tl ih =>
    intro hnd rn rc rc' h1 h2
    rw [List.map_cons, List.nodup_cons] at hnd
    rcases List.mem_cons.mp h1 with h1e | h1m
    · rcases List.mem_cons.mp h2 with h2e | h2m
      · have h12 : (rn, rc) = ((rn, rc') : String × α) := h1e.trans h2e.symm
        exact (Prod.mk.injEq _ _ _ _ ▸ h12 : _ ∧ _).2
      · exact absurd (List.mem_map_of_mem Prod.fst h2m)
          (by rw [← h1e] at hnd; simpa using hnd.1)
    · rcases List.mem_cons.mp h2 with h2e | h2m
      · exact absurd (List.mem_map_of_mem Prod.fst h1m)
          (by rw [← h2e] at hnd; simpa using hnd.1)
      · exact ih hnd.2 h1m h2m

/-- The claim-side inclusion condition for one configured rule: severity not
off, module loads, no missing type information, and the optional `supports`
predicate does not answer `false`. -/
def ruleIncludedSpec (L : String → List String → Option RuleCtor) (F : SourceFile)
    (S : GlobalSettings) (P : Option Program) (rc : RuleConfig) : Prop :=
  rc.severity ≠ .off ∧
  ∃ ctor, L rc.rule rc.rulesDirectories = some ctor ∧
    ¬(P = none ∧ ctor.requiresTypeInformation = true) ∧
    ∀ f, ctor.supports = some f → f F rc.options S = true

/-- The claim-side warning condition: the rule would run, but requires type
information while no program is supplied. -/
def ruleTypeInfoSkipSpec (L : String → List String → Option RuleCtor)
    (P : Option Program) (rc : RuleConfig) : Prop :=
  rc.severity ≠ .off ∧
  ∃ ctor, L rc.rule rc.rulesDirectories = some ctor ∧
    P = none ∧ ctor.requiresTypeInformation = true

/-- The per-entry decision matches the claim-side inclusion condition. -/
theorem prepareRuleEntry_isSome_iff (L : String → List String → Option RuleCtor)
    (F : SourceFile) (S : GlobalSettings) (P : Option Program)
    (rn : String) (rc : RuleConfig) :
    (∃ pr, prepareRuleEntry L F S P (rn, rc) = some pr) ↔ ruleIncludedSpec L F S P rc := by
  unfold prepareRuleEntry ruleIncludedSpec
  cases hsev : rc.severity with
  | off => simp
  | sev s =>
    simp only [hsev]
    cases hload : L rc.rule rc.rulesDirectories with
    | none => simp
    | some ctor =>
      cases hreq : (P.isNone && ctor.requiresTypeInformation) with
      | true =>
        have hp : P = none ∧ ctor.requiresTypeInformation = true := by
          rw [Bool.and_eq_true, Option.isNone_iff_eq_none] at hreq
          exact hreq
        simp [hp.1, hp.2]
      | false =>
        have hnreq : ¬(P = none ∧ ctor.requiresTypeInformation = true) := by
          intro hx
          rw [hx.1] at hreq
          simp [hx.2] at hreq
        cases hsup : ctor.supports with
        | none =>
          simp [hsup, hnreq]
          intro hp
          rw [hp] at hreq
          simpa using hreq
        | some f =>
          by_cases hf : f F rc.options S = true
          · simp [hsup, hf, hnreq]
            intro hp
            rw [hp] at hreq
            simpa using hreq
          · simp [hsup, hf, hnreq]

/-- The per-entry warning decision matches the claim-side condition. -/
theorem prepareRuleWarn_isSome_iff (L : String → List String → Option RuleCtor)
    (P : Option Program) (rn : String) (rc : RuleConfig) :
    prepareRuleWarn L P (rn, rc) = some rn ↔ ruleTypeInfoSkipSpec L P rc := by
  unfold prepareRuleWarn ruleTypeInfoSkipSpec
  cases hsev : rc.severity with
  | off => simp
  | sev s =>
    simp only [hsev]
    cases hload : L rc.rule rc.rulesDirectories with
    | none => simp
    | some ctor =>
      cases hreq : (P.isNone && ctor.requiresTypeInformation) with
      | true =>
        have hp : P = none ∧ ctor.requiresTypeInformation = true := by
          rw [Bool.and_eq_true, Option.isNone_iff_eq_none] at hreq
          exact hreq
        simp [hp.1, hp.2]
      | false =>
        have hnreq : ¬(P = none ∧ ctor.requiresTypeInformation = true) := by
          intro hx
          rw [hx.1] at hreq
          simp [hx.2] at hreq
        simp [hnreq]

/-- Claim C8: a configured rule is prepared iff its severity is not off,
its module loads, it does not require missing type information, and its
optional `supports` predicate does not answer false; the
type-information skip emits a warning naming the rule while the pass
continues over the remaining entries. -/
theorem prepareRules_inclusion (L : String → List String → Option RuleCtor)
    (config : EffectiveConfiguration) (F : SourceFile) (P : Option Program)
    (rn : String) (rc : RuleConfig)
    (hnd : (config.rules.map Prod.fst).Nodup) (hmem : (rn, rc) ∈ config.rules) :
    ((∃ pr ∈ (prepareRules L config F P).1, pr.ruleName = rn) ↔
      ruleIncludedSpec L F config.settings P rc)
    ∧ (rn ∈ (prepareRules L config F P).2 ↔ ruleTypeInfoSkipSpec L P rc) := by
  unfold prepareRules
  rw [prepareRulesGo_eq_filterMap]
  constructor
  · rw [← prepareRuleEntry_isSome_iff L F config.settings P rn rc]
    constructor
    · rintro ⟨pr, hpr, hname⟩
      rw [List.mem_filterMap] at hpr
      obtain ⟨⟨e1, e2⟩, he, hfe⟩ := hpr
      have hkey : pr.ruleName = e1 := prepareRuleEntry_name L F config.settings P (e1, e2) pr hfe
      rw [hname] at hkey
      subst hkey
      have hrc : e2 = rc := key_nodup_eq config.rules hnd he hmem
      subst hrc
      exact ⟨pr, hfe⟩
    · rintro ⟨pr, hpr⟩
      refine ⟨pr, ?_, prepareRuleEntry_name L F config.settings P (rn, rc) pr hpr⟩
      rw [List.mem_filterMap]
      exact ⟨(rn, rc), hmem, hpr⟩
  · constructor
    · intro hw
      rw [List.mem_filterMap] at hw
      obtain ⟨⟨e1, e2⟩, he, hge⟩ := hw
      have hkey : rn = e1 := prepareRuleWarn_name L P (e1, e2) rn hge
      subst hkey
      have hrc : e2 = rc := key_nodup_eq config.rules hnd he hmem
      rw [hrc] at hge
      exact (prepareRuleWarn_isSome_iff L P rn rc).mp hge
    · intro hspec
      rw [List.mem_filterMap]
      exact ⟨(rn, rc), hmem, (prepareRuleWarn_isSome_iff L P rn rc).mpr hspec⟩

/-- The initial loop state of `lintAndFix`: the given file, program and
content, the failures of the initial lint pass, and zero applied fixes. -/
def lintInitState (E : LinterEnv) (C : EffectiveConfiguration) (P : Option Processor)
    (file : SourceFile) (content : String) (program : Option Program) : LintState :=
  ⟨file, program, content, getFailures E file C program P, 0⟩

/-- One executed iteration adds the `fixed` count of `applyFixes` to the
running total. -/
theorem lintStep_totalFixes (E : LinterEnv) (C : EffectiveConfiguration)
    (U : String → ChangeRange → UpdateFileResult) (P : Option Processor) (s : LintState) :
    (lintStep E C U P s).totalFixes =
      s.totalFixes + (E.applyFixes s.content (collectFixes s.failures)).fixed :=
  rfl

/-- After one executed iteration the stored failures are exactly the lint
pass on the updated file and program. -/
theorem lintStep_failures (E : LinterEnv) (C : EffectiveConfiguration)
    (U : String → ChangeRange → UpdateFileResult) (P : Option Processor) (s : LintState) :
    (lintStep E C U P s).failures =
      getFailures E (lintStep E C U P s).file C (lintStep E C U P s).program P :=
  rfl

/-- The `lintAndFix` loop is the iteration of `lintStep`, executed exactly
`stopCount` many times. -/
theorem lintAndFixLoop_eq_iterate (E : LinterEnv) (C : EffectiveConfiguration)
    (U : String → ChangeRange → UpdateFileResult) (P : Option Processor) :
    ∀ (n : Nat) (s : LintState),
      lintAndFixLoop E C U P n s = (lintStep E C U P)^[stopCount E C U P n s] s := by
  intro n
  induction n with
  | zero => intro s; rfl
  | succ n ih =>
    intro s
    simp only [lintAndFixLoop, stopCount]
    by_cases h1 : s.failures = []
    · rw [if_pos h1, if_pos h1]
      rfl
    · rw [if_neg h1, if_neg h1]
      by_cases h2 : collectFixes s.failures = []
      · rw [if_pos h2, if_pos h2]
        rfl
      · rw [if_neg h2, if_neg h2, ih, Function.iterate_succ_apply]

/-- The executed iteration count never exceeds the iteration budget. -/
theorem stopCount_le (E : LinterEnv) (C : EffectiveConfiguration)
    (U : String → ChangeRange → UpdateFileResult) (P : Option Processor) :
    ∀ (n : Nat) (s : LintState), stopCount E C U P n s ≤ n := by
  intro n
  induction n with
  | zero => intro s; exact Nat.le_refl 0
  | succ n ih =>
    intro s
    simp only [stopCount]
    by_cases h1 : s.failures = []
    · rw [if_pos h1]; exact Nat.zero_le _
    · rw [if_neg h1]
      by_cases h2 : collectFixes s.failures = []
      · rw [if_pos h2]; exact Nat.zero_le _
      · rw [if_neg h2]
        exact Nat.succ_le_succ (ih _)

/-- Before the stopping point, every pass still has failures and
collectible fixes. -/
theorem stopCount_not_stopped (E : LinterEnv) (C : EffectiveConfiguration)
    (U : String → ChangeRange → UpdateFileResult) (P : Option Processor) :
    ∀ (n : Nat) (s : LintState) (j : Nat), j < stopCount E C U P n s →
      ¬(((lintStep E C U P)^[j] s).failures = [] ∨
        collectFixes (((lintStep E C U P)^[j] s)).failures = []) := by
  intro n
  induction n with
  | zero => intro s j h; exact absurd h (by simp [stopCount])
  | succ n ih =>
    intro s j h
    simp only [stopCount] at h
    by_cases h1 : s.failures = []
    · rw [if_pos h1] at h
      exact absurd h (Nat.not_lt_zero j)
    · rw [if_neg h1] at h
      by_cases h2 : collectFixes s.failures = []
      · rw [if_pos h2] at h
        exact absurd h (Nat.not_lt_zero j)
      · rw [if_neg h2] at h
        cases j with
        | zero =>
          rw [Function.iterate_zero_apply]
          exact fun hor => hor.elim h1 h2
        | succ j =>
          rw [Function.iterate_succ_apply]
          exact ih (lintStep E C U P s) j (Nat.lt_of_succ_lt_succ h)

/-- When the loop stops before exhausting the budget, the stopping pass has
no failures or no collectible fixes. -/
theorem stopCount_stopped (E : LinterEnv) (C : EffectiveConfiguration)
    (U : String → ChangeRange → UpdateFileResult) (P : Option Processor) :
    ∀ (n : Nat) (s : LintState), stopCount E C U P n s < n →
      (((lintStep E C U P)^[stopCount E C U P n s] s).failures = [] ∨
        collectFixes (((lintStep E C U P)^[stopCount E C U P n s] s)).failures = []) := by
  intro n
  induction n with
  | zero => intro s h; exact absurd h (Nat.not_lt_zero _)
  | succ n ih =>
    intro s h
    simp only [stopCount] at h ⊢
    by_cases h1 : s.failures = []
    · rw [if_pos h1]
      rw [Function.iterate_zero_apply]
      exact Or.inl h1
    · rw [if_neg h1] at h ⊢
      by_cases h2 : collectFixes s.failures = []
      · rw [if_pos h2]
        rw [Function.iterate_zero_apply]
        exact Or.inr h2
      · rw [if_neg h2] at h ⊢
        rw [Function.iterate_succ_apply]
        exact ih (lintStep E C U P s) (Nat.lt_of_succ_lt_succ h)

/-- The running total after `k` executed iterations is the starting total
plus the `fixed` counts of `applyFixes`, one summand per iteration. -/
theorem iterate_totalFixes (E : LinterEnv) (C : EffectiveConfiguration)
    (U : String → ChangeRange → UpdateFileResult) (P : Option Processor) :
    ∀ (k : Nat) (s : LintState),
      ((lintStep E C U P)^[k] s).totalFixes =
        s.totalFixes + ((List.range k).map fun j =>
          (E.applyFixes (((lintStep E C U P)^[j] s)).content
            (collectFixes (((lintStep E C U P)^[j] s)).failures)).fixed).sum := by
  intro k
  induction k with
  | zero => intro s; simp
  | succ k ih =>
    intro s
    rw [Function.iterate_succ_apply', lintStep_totalFixes, ih, List.range_succ,
      List.map_append, List.sum_append]
    simp [Nat.add_assoc]

/-- The stored failures always belong to the current file and program. -/
theorem iterate_failures_inv (E : LinterEnv) (C : EffectiveConfiguration)
    (U : String → ChangeRange → UpdateFileResult) (P : Option Processor) :
    ∀ (k : Nat) (s : LintState),
      s.failures = getFailures E s.file C s.program P →
      ((lintStep E C U P)^[k] s).failures =
        getFailures E ((lintStep E C U P)^[k] s).file C ((lintStep E C U P)^[k] s).program P := by
  intro k
  induction k with
  | zero => intro s h; simpa using h
  | succ k ih =>
    intro s h
    rw [Function.iterate_succ_apply']
    exact lintStep_failures E C U P _

/-- Claim C1: the `lintAndFix` loop executes exactly `stopCount` iterations
(never more than the budget; every earlier pass still had failures and
fixes; stopping early means the stopping pass lacked one of them), and the
returned record carries the final content, the failure list of the last
executed pass (always the lint pass on the final file and program), and the
total of the individually applied fix counts over all executed iterations. -/
theorem lintAndFix_spec (E : LinterEnv) (C : EffectiveConfiguration)
    (U : String → ChangeRange → UpdateFileResult) (P : Option Processor)
    (file : SourceFile) (content : String) (iterations : Nat) (program : Option Program) :
    stopCount E C U P iterations (lintInitState E C P file content program) ≤ iterations
    ∧ (∀ j, j < stopCount E C U P iterations (lintInitState E C P file content program) →
        ¬(((lintStep E C U P)^[j] (lintInitState E C P file content program)).failures = [] ∨
          collectFixes (((lintStep E C U P)^[j] (lintInitState E C P file content program))).failures = []))
    ∧ (stopCount E C U P iterations (lintInitState E C P file content program) < iterations →
        (((lintStep E C U P)^[stopCount E C U P iterations (lintInitState E C P file content program)]
            (lintInitState E C P file content program)).failures = [] ∨
          collectFixes (((lintStep E C U P)^[stopCount E C U P iterations (lintInitState E C P file content program)]
            (lintInitState E C P file content program))).failures = []))
    ∧ lintAndFix E file content C U iterations program P =
        ⟨((lintStep E C U P)^[stopCount E C U P iterations (lintInitState E C P file content program)]
            (lintInitState E C P file content program)).content,
          ((lintStep E C U P)^[stopCount E C U P iterations (lintInitState E C P file content program)]
            (lintInitState E C P file content program)).failures,
          ((lintStep E C U P)^[stopCount E C U P iterations (lintInitState E C P file content program)]
            (lintInitState E C P file content program)).totalFixes⟩
    ∧ ((lintStep E C U P)^[stopCount E C U P iterations (lintInitState E C P file content program)]
          (lintInitState E C P file content program)).failures =
        getFailures E
          ((lintStep E C U P)^[stopCount E C U P iterations (lintInitState E C P file content program)]
            (lintInitState E C P file content program)).file C
          ((lintStep E C U P)^[stopCount E C U P iterations (lintInitState E C P file content program)]
            (lintInitState E C P file content program)).program P
    ∧ ((lintStep E C U P)^[stopCount E C U P iterations (lintInitState E C P file content program)]
          (lintInitState E C P file content program)).totalFixes =
        ((List.range (stopCount E C U P iterations (lintInitState E C P file content program))).map fun j =>
          (E.applyFixes (((lintStep E C U P)^[j] (lintInitState E C P file content program))).content
            (collectFixes (((lintStep E C U P)^[j] (lintInitState E C P file content program))).failures)).fixed).sum := by
  have h6 := iterate_totalFixes E C U P
    (stopCount E C U P iterations (lintInitState E C P file content program))
    (lintInitState E C P file content program)
  have h0 : (lintInitState E C P file content program).totalFixes = 0 := rfl
  rw [h0, Nat.zero_add] at h6
  refine ⟨stopCount_le E C U P iterations _,
    fun j hj => stopCount_not_stopped E C U P iterations _ j hj,
    fun h => stopCount_stopped E C U P iterations _ h,
    ?_,
    iterate_failures_inv E C U P _ _ rfl,
    h6⟩
  have hfix : lintAndFix E file content C U iterations program P =
      ⟨(lintAndFixLoop E C U P iterations (lintInitState E C P file content program)).content,
        (lintAndFixLoop E C U P iterations (lintInitState E C P file content program)).failures,
        (lintAndFixLoop E C U P iterations (lintInitState E C P file content program)).totalFixes⟩ :=
    rfl
  rw [hfix, lintAndFixLoop_eq_iterate]

/-- Fixture: the empty source text. -/
def emptyText : String := ""

/-- Fixture: a rule name. -/
def ruleNameA : String := "ra"

/-- Fixture: another rule name. -/
def ruleNameX : String := "rx"

/-- Fixture: a failure message. -/
def msgW : String := "m"

/-- Fixture: a disable map with one range for `ruleNameA`. -/
def disablesW : String → Option (List TextRange) := fun rn =>
  if rn = ruleNameA then some [⟨10, 20⟩] else none

/-- Fixture: a line map. -/
def lineMapW : Nat → Nat × Nat := fun p => (0, p)

/-- Fixture: a report call whose range starts exactly where the disabled
range ends. -/
def callW : ReportCall := ⟨20, 25, msgW, .undef⟩

/-- Fixture: a rule emitting `callW`. -/
def ruleW : ExecRule := ⟨ruleNameA, .error, [callW]⟩

/-- Witness for claim C2: the failure whose range touches the disabled
range `[10, 20)` only at the endpoint `20` is reported. -/
theorem addFailure_suppression_witness :
    mkFailure lineMapW ruleW.ruleName ruleW.severity callW ∈
      applyRules disablesW lineMapW [ruleW] :=
  (addFailure_suppression disablesW lineMapW [ruleW] ruleW callW (List.Mem.head _)
    (List.Mem.head _)).2.1 (by decide)

/-- Fixture: a rule constructor requiring type information. -/
def ctorW : RuleCtor := ⟨true, none⟩

/-- Fixture: a configured rule entry. -/
def rcW : RuleConfig := ⟨0, .sev .error, [], ruleNameX⟩

/-- Fixture: a loader resolving every rule to `ctorW`. -/
def loadRuleW : String → List String → Option RuleCtor := fun _ _ => some ctorW

/-- Fixture: an empty source file. -/
def fileW : SourceFile := ⟨emptyText, 0⟩

/-- Fixture: a configuration with the single entry `rcW`. -/
def configW : EffectiveConfiguration := ⟨[(ruleNameX, rcW)], 0⟩

/-- Witness for claim C8: with no program supplied, the type-information
rule is skipped with a warning naming it. -/
theorem prepareRules_inclusion_witness :
    ruleNameX ∈ (prepareRules loadRuleW configW fileW none).2 :=
  (prepareRules_inclusion loadRuleW configW fileW none ruleNameX rcW (by decide)
    (List.Mem.head _)).2.mpr ⟨by decide, ctorW, rfl, rfl, rfl⟩

/-- Fixture: a linter environment whose collaborators do nothing. -/
def envW : LinterEnv :=
  ⟨fun _ _ => none, fun _ _ _ _ => [], fun s _ => ⟨0, s, ⟨0, 0, 0⟩⟩, fun _ _ => ⟨0, 0, 0⟩⟩

/-- Fixture: an empty source file for the loop witness. -/
def fileE : SourceFile := ⟨emptyText, 1⟩

/-- Fixture: an `updateFile` callback answering `fileE`. -/
def updW : String → ChangeRange → UpdateFileResult := fun _ _ => ⟨fileE, none⟩

/-- Fixture: an empty configuration. -/
def configE : EffectiveConfiguration := ⟨[], 0⟩

/-- Witness for claim C1: with no active rules the loop stops immediately
and returns the unchanged content, no failures and zero fixes. -/
theorem lintAndFix_spec_witness :
    stopCount envW configE updW none 1 (lintInitState envW configE none fileE emptyText none) ≤ 1
    ∧ lintAndFix envW fileE emptyText configE updW 1 none none = ⟨emptyText, [], 0⟩ := by
  have h := lintAndFix_spec envW configE updW none fileE emptyText 1 none
  exact ⟨h.1, by rw [h.2.2.2.1]; rfl⟩

/-- When the symbol is not abstract (or the access is not through `this`)
and the access is not through `super`, the first two blocks fall through and
the resolver is exactly its visibility block. -/
theorem getRestricted_eq_visibility (checker : Checker) (symbol : Symbol) (name : String)
    (node : ElementAccessNode) (lhsType : Ty)
    (h1 : (getModifierFlagsOfSymbol symbol).isAbstract = false ∨ node.exprKind ≠ .thisKeyword)
    (h2 : node.exprKind ≠ .superKeyword) :
    getRestrictedElementAccessError checker symbol name node lhsType =
      visibilityCheck checker symbol name node lhsType (getModifierFlagsOfSymbol symbol) := by
  have ha : abstractThisCheck checker symbol name node (getModifierFlagsOfSymbol symbol) =
      .fallthrough := by
    unfold abstractThisCheck
    rw [if_neg]
    rintro ⟨hk, hab⟩
    rcases h1 with h1 | h1
    · rw [h1] at hab
      exact Bool.false_ne_true hab
    · exact h1 hk
  have hb : superCheck checker symbol name node (getModifierFlagsOfSymbol symbol) =
      .fallthrough := by
    unfold superCheck
    rw [if_neg]
    rintro ⟨hk, _⟩
    exact h2 hk
  simp only [getRestrictedElementAccessError, ha, hb]

/-- The visibility block only ever produces visibility or
protected-instance messages. -/
theorem visibilityCheck_ne (checker : Checker) (symbol : Symbol) (name : String)
    (node : ElementAccessNode) (lhsType : Ty) (flags : ModifierFlags) :
    (∀ nm t, visibilityCheck checker symbol name node lhsType flags ≠
        some (some (.abstractPropertyInit nm t)))
    ∧ visibilityCheck checker symbol name node lhsType flags ≠ some (some .superNonPrototype)
    ∧ (∀ nm t, visibilityCheck checker symbol name node lhsType flags ≠
        some (some (.superAbstract nm t))) := by
  refine ⟨fun nm t h => ?_, fun h => ?_, fun nm t h => ?_⟩
  all_goals simp only [visibilityCheck] at h
  all_goals repeat' split at h
  all_goals simp_all [failVisibility]

/-- One step of the boundary walk, spelled out. -/
theorem getEnclosingClass_step (hd : NodeInfo) (tl : List NodeInfo) :
    getEnclosingClassOfAbstractPropertyAccess (hd :: tl) =
      if isFunctionScopeBoundary hd then
        match hd.kind with
        | .classDeclaration => some (some hd.classDecl)
        | .classExpression => some (some hd.classDecl)
        | .constructorDecl =>
          match tl with
          | [] => some none
          | parent :: _ => some (some parent.classDecl)
        | _ => some none
      else getEnclosingClassOfAbstractPropertyAccess tl :=
  rfl

/-- The boundary walk of the abstract-property check is a `dropWhile` to the
first function scope boundary, which then decides the answer by its kind. -/
theorem getEnclosingClass_eq_dropWhile : ∀ l : List NodeInfo,
    getEnclosingClassOfAbstractPropertyAccess l =
      match l.dropWhile (fun a => !isFunctionScopeBoundary a) with
      | [] => none
      | b :: r =>
        match b.kind with
        | .classDeclaration => some (some b.classDecl)
        | .classExpression => some (some b.classDecl)
        | .constructorDecl =>
          match r with
          | [] => some none
          | parent :: _ => some (some parent.classDecl)
        | _ => some none := by
  intro l
  induction l with
  | nil => rfl
  | cons hd tl ih =>
    rw [getEnclosingClass_step, List.dropWhile_cons]
    cases hb : isFunctionScopeBoundary hd with
    | true => cases hk : hd.kind <;> simp [hb, hk]
    | false => simp [hb, ih]

/-- The stopping test of `findEnclosingClass`: a source file, or a class
whose instance type reaches every base class. -/
def enclosingStops (checker : Checker) (baseClasses : List ClassLikeDeclaration)
    (a : NodeInfo) : Bool :=
  a.kind == .sourceFile ||
  ((a.kind == .classDeclaration || a.kind == .classExpression) &&
    baseClasses.all fun bc => hasBase (checker.instanceType a.classDecl.id) bc typeContainsDeclaration)

/-- `findEnclosingClass` answers from the nearest ancestor that is either a
source file (no enclosing class) or a qualifying class (its instance type);
ancestors before that first stop are skipped, ancestors after it are never
examined. -/
theorem findEnclosingClass_eq_find (checker : Checker)
    (baseClasses : List ClassLikeDeclaration) : ∀ l : List NodeInfo,
    findEnclosingClass checker baseClasses l =
      match l.find? (enclosingStops checker baseClasses) with
      | none => none
      | some a => if a.kind == .sourceFile then some none
          else some (some (checker.instanceType a.classDecl.id)) := by
  intro l
  induction l with
  | nil => rfl
  | cons hd tl ih =>
    rw [List.find?]
    cases hstop : enclosingStops checker baseClasses hd with
    | true =>
      have hstop2 := hstop
      rw [enclosingStops, Bool.or_eq_true, Bool.and_eq_true, Bool.or_eq_true] at hstop2
      rcases hstop2 with hsf | ⟨hcls | hcls, hall⟩
      · rw [beq_iff_eq] at hsf
        simp [findEnclosingClass, hsf]
      · rw [beq_iff_eq] at hcls
        simp [findEnclosingClass, hcls, hall]
      · rw [beq_iff_eq] at hcls
        simp [findEnclosingClass, hcls, hall]
    | false =>
      have hsf : hd.kind ≠ SyntaxKind.sourceFile := by
        intro hx
        rw [enclosingStops, hx] at hstop
        simp at hstop
      have hallf : (hd.kind = SyntaxKind.classDeclaration ∨ hd.kind = SyntaxKind.classExpression) →
          (baseClasses.all fun bc =>
            hasBase (checker.instanceType hd.classDecl.id) bc typeContainsDeclaration) = false := by
        intro hcls
        rcases hcls with hcls | hcls <;> rw [enclosingStops, hcls] at hstop <;> simpa using hstop
      have hskip : findEnclosingClass checker baseClasses (hd :: tl) =
          findEnclosingClass checker baseClasses tl := by
        cases hk : hd.kind
        case sourceFile => exact absurd hk hsf
        case classDeclaration => simp [findEnclosingClass, hk, hallf (Or.inl hk)]
        case classExpression => simp [findEnclosingClass, hk, hallf (Or.inr hk)]
        all_goals simp only [findEnclosingClass, hk]
      rw [hskip, ih]

/-- For a `super` access the abstract-`this` block falls through and the
resolver is decided by the `super` block, then the visibility block. -/
theorem getRestricted_super (checker : Checker) (symbol : Symbol) (name : String)
    (node : ElementAccessNode) (lhsType : Ty)
    (hsuper : node.exprKind = .superKeyword) :
    getRestrictedElementAccessError checker symbol name node lhsType =
      match superCheck checker symbol name node (getModifierFlagsOfSymbol symbol) with
      | .crash => none
      | .failWith e => some (some e)
      | .fallthrough =>
        visibilityCheck checker symbol name node lhsType (getModifierFlagsOfSymbol symbol) := by
  have ha : abstractThisCheck checker symbol name node (getModifierFlagsOfSymbol symbol) =
      .fallthrough := by
    unfold abstractThisCheck
    rw [if_neg]
    rintro ⟨hk, _⟩
    rw [hsuper] at hk
    exact absurd hk (by simp)
  simp only [getRestrictedElementAccessError, ha]

/-- The `super` block of the resolver under its guard, spelled out over the
declaration list. -/
theorem superCheck_eval (checker : Checker) (symbol : Symbol) (name : String)
    (node : ElementAccessNode) (ds : List Declaration)
    (hdecls : symbol.declarations = some ds)
    (hsuper : node.exprKind = .superKeyword)
    (hstatic : (getModifierFlagsOfSymbol symbol).isStatic = false)
    (hctx : isStaticSuper node.chain = some false) :
    superCheck checker symbol name node (getModifierFlagsOfSymbol symbol) =
      match hasNonPrototypeDeclaration symbol with
      | none => .crash
      | some true => .failWith .superNonPrototype
      | some false =>
        if (getModifierFlagsOfSymbol symbol).isAbstract then
          if ds.all fun d => hasModifier d.modifiers .abstractKeyword then
            match ds.head? with
            | none => .crash
            | some d0 => .failWith (.superAbstract name (printClass d0.parent checker))
          else .fallthrough
        else .fallthrough := by
  unfold superCheck
  rw [if_pos ⟨hsuper, hstatic⟩, hctx]
  simp only [hdecls]
  cases ds <;> rfl

/-- Claim C3: for a `super` access to a non-static member outside a static
context, a non-prototype declaration yields the super-access message (and
that message arises only then); failing that, an abstract symbol whose
declarations all carry the `abstract` modifier yields the abstract-super
message naming the first declaration's class (and that message arises only
under those conditions); otherwise the `super` block permits the access and
the resolver continues with the visibility block. -/
theorem superAccess_check (checker : Checker) (symbol : Symbol) (name : String)
    (node : ElementAccessNode) (lhsType : Ty) (ds : List Declaration)
    (hdecls : symbol.declarations = some ds)
    (hsuper : node.exprKind = .superKeyword)
    (hstatic : (getModifierFlagsOfSymbol symbol).isStatic = false)
    (hctx : isStaticSuper node.chain = some false) :
    ((ds.any fun d => !isPrototypeKind d.kind) = true →
        getRestrictedElementAccessError checker symbol name node lhsType =
          some (some .superNonPrototype))
    ∧ (∀ d0 tl, ds = d0 :: tl →
        (ds.any fun d => !isPrototypeKind d.kind) = false →
        (getModifierFlagsOfSymbol symbol).isAbstract = true →
        (ds.all fun d => hasModifier d.modifiers .abstractKeyword) = true →
        getRestrictedElementAccessError checker symbol name node lhsType =
          some (some (.superAbstract name (printClass d0.parent checker))))
    ∧ ((ds.any fun d => !isPrototypeKind d.kind) = false →
        ¬((getModifierFlagsOfSymbol symbol).isAbstract = true ∧
          (ds.all fun d => hasModifier d.modifiers .abstractKeyword) = true) →
        getRestrictedElementAccessError checker symbol name node lhsType =
          visibilityCheck checker symbol name node lhsType (getModifierFlagsOfSymbol symbol))
    ∧ (getRestrictedElementAccessError checker symbol name node lhsType =
          some (some .superNonPrototype) →
        (ds.any fun d => !isPrototypeKind d.kind) = true)
    ∧ (∀ nm t, getRestrictedElementAccessError checker symbol name node lhsType =
          some (some (.superAbstract nm t)) →
        ((getModifierFlagsOfSymbol symbol).isAbstract = true ∧
          (ds.all fun d => hasModifier d.modifiers .abstractKeyword) = true)) := by
  have hres := getRestricted_super checker symbol name node lhsType hsuper
  have hsc := superCheck_eval checker symbol name node ds hdecls hsuper hstatic hctx
  have hnp : hasNonPrototypeDeclaration symbol =
      some (ds.any fun d => !isPrototypeKind d.kind) := by
    unfold hasNonPrototypeDeclaration
    rw [hdecls]
    rfl
  refine ⟨?_, ?_, ?_, ?_, ?_⟩
  · intro hany
    rw [hres, hsc, hnp, hany]
  · intro d0 tl hds hany habs hall
    subst hds
    rw [hres, hsc, hnp, hany]
    simp [habs, hall]
  · intro hany hnab
    rw [hres, hsc, hnp, hany]
    cases habs : (getModifierFlagsOfSymbol symbol).isAbstract with
    | false => simp
    | true =>
      have hallf : (ds.all fun d => hasModifier d.modifiers .abstractKeyword) = false := by
        cases hall : ds.all fun d => hasModifier d.modifiers .abstractKeyword
        · rfl
        · exact absurd ⟨habs, hall⟩ hnab
      simp [hallf]
  · intro h
    cases hany : ds.any fun d => !isPrototypeKind d.kind with
    | true => rfl
    | false =>
      exfalso
      rw [hres, hsc, hnp, hany] at h
      cases habs : (getModifierFlagsOfSymbol symbol).isAbstract with
      | false =>
        rw [habs] at h
        simp only [Bool.false_eq_true, if_false] at h
        exact (visibilityCheck_ne checker symbol name node lhsType
          (getModifierFlagsOfSymbol symbol)).2.1 h
      | true =>
        rw [habs] at h
        simp only [if_true] at h
        cases hall : ds.all fun d => hasModifier d.modifiers .abstractKeyword with
        | false =>
          rw [hall] at h
          simp only [Bool.false_eq_true, if_false] at h
          exact (visibilityCheck_ne checker symbol name node lhsType
            (getModifierFlagsOfSymbol symbol)).2.1 h
        | true =>
          rw [hall] at h
          simp only [if_true] at h
          cases ds with
          | nil => exact absurd h (by simp)
          | cons d0 tl => exact absurd h (by simp)
  · intro nm t h
    cases hany : ds.any fun d => !isPrototypeKind d.kind with
    | true =>
      exfalso
      rw [hres, hsc, hnp, hany] at h
      exact absurd h (by simp)
    | false =>
      rw [hres, hsc, hnp, hany] at h
      cases habs : (getModifierFlagsOfSymbol symbol).isAbstract with
      | false =>
        exfalso
        rw [habs] at h
        simp only [Bool.false_eq_true, if_false] at h
        exact (visibilityCheck_ne checker symbol name node lhsType
          (getModifierFlagsOfSymbol symbol)).2.2 nm t h
      | true =>
        rw [habs] at h
        simp only [if_true] at h
        cases hall : ds.all fun d => hasModifier d.modifiers .abstractKeyword with
        | false =>
          exfalso
          rw [hall] at h
          simp only [Bool.false_eq_true, if_false] at h
          exact (visibilityCheck_ne checker symbol name node lhsType
            (getModifierFlagsOfSymbol symbol)).2.2 nm t h
        | true => exact ⟨rfl, rfl⟩

/-- Fixture: the accessed member name. -/
def nameS : String := "p"

/-- Fixture: a base class declaration. -/
def clsS : ClassLikeDeclaration := ⟨2, 0, 50⟩

/-- Fixture: a non-prototype (property) declaration of the member. -/
def declS : Declaration := ⟨.propertyDeclaration, none, clsS⟩

/-- Fixture: the member symbol. -/
def symS : Symbol := ⟨some [declS]⟩

/-- Fixture: a checker mapping every class to a plain object type. -/
def chkS : Checker := ⟨fun i => Ty.obj i [] []⟩

/-- Fixture: a `super` element access inside an instance method. -/
def nodeS : ElementAccessNode :=
  ⟨.superKeyword, 10, 12,
    [⟨.methodDeclaration, none, ⟨0, 0, 0⟩, [], false⟩,
     ⟨.classDeclaration, none, clsS, [], false⟩,
     ⟨.sourceFile, none, ⟨0, 0, 0⟩, [], false⟩]⟩

/-- Fixture: the static left-hand-side type. -/
def lhsS : Ty := Ty.obj 9 [] []

/-- Witness for claim C3: a `super` access to a property member yields the
super-access violation. -/
theorem superAccess_check_witness :
    getRestrictedElementAccessError chkS symS nameS nodeS lhsS =
      some (some .superNonPrototype) :=
  (superAccess_check chkS symS nameS nodeS lhsS [declS] rfl rfl rfl rfl).1 rfl

/-- For a `this` access the `super` block always falls through. -/
theorem superCheck_this (checker : Checker) (symbol : Symbol) (name : String)
    (node : ElementAccessNode) (flags : ModifierFlags)
    (hthis : node.exprKind = .thisKeyword) :
    superCheck checker symbol name node flags = .fallthrough := by
  unfold superCheck
  rw [if_neg]
  rintro ⟨hk, _⟩
  rw [hthis] at hk
  exact absurd hk (by simp)

/-- The abstract-`this` block under its guard, spelled out. -/
theorem abstractThisCheck_eval (checker : Checker) (symbol : Symbol) (name : String)
    (node : ElementAccessNode)
    (hthis : node.exprKind = .thisKeyword)
    (habs : (getModifierFlagsOfSymbol symbol).isAbstract = true) :
    abstractThisCheck checker symbol name node (getModifierFlagsOfSymbol symbol) =
      match hasNonPrototypeDeclaration symbol with
      | none => .crash
      | some false => .fallthrough
      | some true =>
        match getEnclosingClassOfAbstractPropertyAccess node.ancestors with
        | none => .crash
        | some none => .fallthrough
        | some (some c) => .failWith (.abstractPropertyInit name (printClass c checker)) := by
  unfold abstractThisCheck
  rw [if_pos ⟨hthis, habs⟩]

/-- Claim C4, amended: for a `this` access to an abstract symbol, the
abstract-property message is produced exactly when the symbol has a
non-prototype declaration and the nearest function scope boundary above the
access is a class (class-level initializer or computed-name context) or a
constructor with a parent; inside methods or other function boundaries the
check permits the access and the resolver continues with the visibility
block, as it does when the symbol has only prototype declarations.  The
last conjunct states the boundary walk as a `dropWhile`. -/
theorem abstractThis_check_amended (checker : Checker) (symbol : Symbol) (name : String)
    (node : ElementAccessNode) (lhsType : Ty) (ds : List Declaration)
    (hdecls : symbol.declarations = some ds)
    (hthis : node.exprKind = .thisKeyword)
    (habs : (getModifierFlagsOfSymbol symbol).isAbstract = true) :
    (∀ c, (ds.any fun d => !isPrototypeKind d.kind) = true →
        getEnclosingClassOfAbstractPropertyAccess node.ancestors = some (some c) →
        getRestrictedElementAccessError checker symbol name node lhsType =
          some (some (.abstractPropertyInit name (printClass c checker))))
    ∧ ((ds.any fun d => !isPrototypeKind d.kind) = false →
        getRestrictedElementAccessError checker symbol name node lhsType =
          visibilityCheck checker symbol name node lhsType (getModifierFlagsOfSymbol symbol))
    ∧ ((ds.any fun d => !isPrototypeKind d.kind) = true →
        getEnclosingClassOfAbstractPropertyAccess node.ancestors = some none →
        getRestrictedElementAccessError checker symbol name node lhsType =
          visibilityCheck checker symbol name node lhsType (getModifierFlagsOfSymbol symbol))
    ∧ (∀ nm t, getRestrictedElementAccessError checker symbol name node lhsType =
          some (some (.abstractPropertyInit nm t)) →
        ((ds.any fun d => !isPrototypeKind d.kind) = true ∧
          ∃ c, getEnclosingClassOfAbstractPropertyAccess node.ancestors = some (some c)))
    ∧ getEnclosingClassOfAbstractPropertyAccess node.ancestors =
        (match node.ancestors.dropWhile (fun a => !isFunctionScopeBoundary a) with
         | [] => none
         | b :: r =>
           match b.kind with
           | .classDeclaration => some (some b.classDecl)
           | .classExpression => some (some b.classDecl)
           | .constructorDecl =>
             match r with
             | [] => some none
             | parent :: _ => some (some parent.classDecl)
           | _ => some none) := by
  have hac := abstractThisCheck_eval checker symbol name node hthis habs
  have hscf := superCheck_this checker symbol name node (getModifierFlagsOfSymbol symbol) hthis
  have hnp : hasNonPrototypeDeclaration symbol =
      some (ds.any fun d => !isPrototypeKind d.kind) := by
    unfold hasNonPrototypeDeclaration
    rw [hdecls]
    rfl
  refine ⟨?_, ?_, ?_, ?_, getEnclosingClass_eq_dropWhile node.ancestors⟩
  · intro c hany hwalk
    simp only [getRestrictedElementAccessError, hac, hnp, hany, hwalk]
  · intro hany
    simp only [getRestrictedElementAccessError, hac, hnp, hany, hscf]
  · intro hany hwalk
    simp only [getRestrictedElementAccessError, hac, hnp, hany, hwalk, hscf]
  · intro nm t h
    simp only [getRestrictedElementAccessError, hac, hnp] at h
    cases hany : ds.any fun d => !isPrototypeKind d.kind with
    | false =>
      exfalso
      rw [hany] at h
      simp only [hscf] at h
      exact (visibilityCheck_ne checker symbol name node lhsType
        (getModifierFlagsOfSymbol symbol)).1 nm t h
    | true =>
      rw [hany] at h
      cases hwalk : getEnclosingClassOfAbstractPropertyAccess node.ancestors with
      | none =>
        exfalso
        rw [hwalk] at h
        exact absurd h (by simp)
      | some found =>
        cases found with
        | none =>
          exfalso
          rw [hwalk] at h
          simp only [hscf] at h
          exact (visibilityCheck_ne checker symbol name node lhsType
            (getModifierFlagsOfSymbol symbol)).1 nm t h
        | some c => exact ⟨rfl, c, rfl⟩

/-- Fixture: the accessed member name for the abstract-property cases. -/
def nameA : String := "ax"

/-- Fixture: the declaring class. -/
def clsA : ClassLikeDeclaration := ⟨5, 0, 100⟩

/-- Fixture: an abstract property declaration (a non-prototype member). -/
def declA : Declaration := ⟨.propertyDeclaration, some [.abstractKeyword], clsA⟩

/-- Fixture: the abstract member symbol. -/
def symA : Symbol := ⟨some [declA]⟩

/-- Fixture: a checker mapping every class to a plain object type. -/
def chkA : Checker := ⟨fun i => Ty.obj i [] []⟩

/-- Fixture: a `this` element access inside the class constructor. -/
def nodeA : ElementAccessNode :=
  ⟨.thisKeyword, 40, 45,
    [⟨.constructorDecl, none, ⟨0, 0, 0⟩, [], false⟩,
     ⟨.classDeclaration, none, clsA, [], false⟩,
     ⟨.sourceFile, none, ⟨0, 0, 0⟩, [], false⟩]⟩

/-- Fixture: the left-hand-side type. -/
def lhsA : Ty := Ty.obj 5 [] []

/-- Counterexample to claim C4 as stated: this member HAS a non-accessor
(non-prototype) declaration — the claim's condition "has no non-accessor
declaration" fails — and yet the resolver returns the abstract-property
violation for the constructor-body access. -/
theorem abstractThis_claim_counterexample :
    hasNonPrototypeDeclaration symA = some true ∧
    getRestrictedElementAccessError chkA symA nameA nodeA lhsA =
      some (some (.abstractPropertyInit nameA (Ty.obj 5 [] []))) :=
  ⟨rfl, rfl⟩

/-- Fixture: a `this` element access inside a method of the class. -/
def nodeA2 : ElementAccessNode :=
  ⟨.thisKeyword, 40, 45,
    [⟨.methodDeclaration, none, ⟨0, 0, 0⟩, [], false⟩,
     ⟨.classDeclaration, none, clsA, [], false⟩,
     ⟨.sourceFile, none, ⟨0, 0, 0⟩, [], false⟩]⟩

/-- Witness for claim C4 (amended): inside a method body the nearest
function scope boundary is the method, so the abstract-property check
permits the access and the resolver proceeds to the visibility block. -/
theorem abstractThis_check_amended_witness :
    getRestrictedElementAccessError chkA symA nameA nodeA2 lhsA =
      visibilityCheck chkA symA nameA nodeA2 lhsA (getModifierFlagsOfSymbol symA) :=
  (abstractThis_check_amended chkA symA nameA nodeA2 lhsA [declA] rfl rfl rfl).2.2.1
    rfl rfl

/-- The visibility block for a private member, spelled out: the access must
lie within the span of the first declaration's parent class. -/
theorem visibilityCheck_private (checker : Checker) (symbol : Symbol) (name : String)
    (node : ElementAccessNode) (lhsType : Ty) (d0 : Declaration) (tl : List Declaration)
    (hdecls : symbol.declarations = some (d0 :: tl))
    (hpriv : (getModifierFlagsOfSymbol symbol).isPrivate = true) :
    visibilityCheck checker symbol name node lhsType (getModifierFlagsOfSymbol symbol) =
      (if node.pos < d0.parent.pos ∨ node.endPos > d0.parent.endPos then
        some (some (failVisibility name (printClass d0.parent checker) true))
      else some none) := by
  unfold visibilityCheck
  rw [if_neg (by rintro ⟨hp, _⟩; rw [hpriv] at hp; exact absurd hp (by simp)),
    if_pos hpriv, hdecls]

/-- Claim C6: a private member access is permitted iff the access node lies
lexically within the span of the declaring class (the first declaration's
parent); otherwise the resolver returns the private-visibility message
naming that class. -/
theorem privateAccess_check (checker : Checker) (symbol : Symbol) (name : String)
    (node : ElementAccessNode) (lhsType : Ty) (d0 : Declaration) (tl : List Declaration)
    (hdecls : symbol.declarations = some (d0 :: tl))
    (hnabs : (getModifierFlagsOfSymbol symbol).isAbstract = false)
    (hnsuper : node.exprKind ≠ .superKeyword)
    (hpriv : (getModifierFlagsOfSymbol symbol).isPrivate = true) :
    (getRestrictedElementAccessError checker symbol name node lhsType = some none ↔
      (d0.parent.pos ≤ node.pos ∧ node.endPos ≤ d0.parent.endPos))
    ∧ ((node.pos < d0.parent.pos ∨ node.endPos > d0.parent.endPos) →
        getRestrictedElementAccessError checker symbol name node lhsType =
          some (some (.visibility name (printClass d0.parent checker) true))) := by
  have hres := getRestricted_eq_visibility checker symbol name node lhsType (Or.inl hnabs) hnsuper
  have hvc := visibilityCheck_private checker symbol name node lhsType d0 tl hdecls hpriv
  refine ⟨?_, ?_⟩
  · rw [hres, hvc]
    by_cases hc : node.pos < d0.parent.pos ∨ node.endPos > d0.parent.endPos
    · rw [if_pos hc]
      constructor
      · intro h
        exact absurd h (by simp [failVisibility])
      · intro h
        exact absurd hc (by omega)
    · rw [if_neg hc]
      push_neg at hc
      exact ⟨fun _ => ⟨hc.1, hc.2⟩, fun _ => rfl⟩
  · intro hc
    rw [hres, hvc, if_pos hc]
    rfl

/-- Fixture: the private member name. -/
def nameV : String := "v"

/-- Fixture: the declaring class of the private member. -/
def clsV : ClassLikeDeclaration := ⟨3, 0, 100⟩

/-- Fixture: the private property declaration. -/
def declV : Declaration := ⟨.propertyDeclaration, some [.privateKeyword], clsV⟩

/-- Fixture: the private member symbol. -/
def symV : Symbol := ⟨some [declV]⟩

/-- Fixture: a checker mapping every class to a plain object type. -/
def chkV : Checker := ⟨fun i => Ty.obj i [] []⟩

/-- Fixture: an ordinary element access inside the declaring class span. -/
def nodeV : ElementAccessNode :=
  ⟨.other, 10, 20,
    [⟨.methodDeclaration, none, ⟨0, 0, 0⟩, [], false⟩,
     ⟨.classDeclaration, none, clsV, [], false⟩,
     ⟨.sourceFile, none, ⟨0, 0, 0⟩, [], false⟩]⟩

/-- Fixture: the left-hand-side type. -/
def lhsV : Ty := Ty.obj 3 [] []

/-- Witness for claim C6: an access whose span lies inside the declaring
class is permitted. -/
theorem privateAccess_check_witness :
    getRestrictedElementAccessError chkV symV nameV nodeV lhsV = some none :=
  (privateAccess_check chkV symV nameV nodeV lhsV declV [] rfl rfl (by decide) rfl).1.mpr
    (by decide)

/-- The visibility block for a protected (non-private) member, spelled out:
resolve an enclosing class lexically, fall back to an explicit `this`
parameter for non-static members, fail without a context, and check the
left-hand-side type against the context for non-static members. -/
theorem visibilityCheck_protected (checker : Checker) (symbol : Symbol) (name : String)
    (node : ElementAccessNode) (lhsType : Ty) (ds : List Declaration)
    (hdecls : symbol.declarations = some ds)
    (hnpriv : (getModifierFlagsOfSymbol symbol).isPrivate = false)
    (hprot : (getModifierFlagsOfSymbol symbol).isProtected = true) :
    visibilityCheck checker symbol name node lhsType (getModifierFlagsOfSymbol symbol) =
      (match findEnclosingClass checker (ds.map fun d => d.parent) node.ancestors with
       | none => none
       | some found =>
         match (match found with
                | some t => some (some t)
                | none =>
                  if (getModifierFlagsOfSymbol symbol).isStatic = false then
                    getEnclosingClassFromThisParameter checker (ds.map fun d => d.parent)
                      node.ancestors
                  else some none) with
         | none => none
         | some none => some (some (failVisibility name lhsType false))
         | some (some enclosingClass) =>
           if (getModifierFlagsOfSymbol symbol).isStatic = false ∧
               hasBase lhsType enclosingClass isIdentical = false then
             some (some (.protectedThroughInstance name enclosingClass))
           else some none) := by
  unfold visibilityCheck
  rw [if_neg (by rintro ⟨_, hp⟩; rw [hprot] at hp; exact absurd hp (by simp)),
    if_neg (by rw [hnpriv]; exact Bool.false_ne_true)]
  simp only [hdecls]
  rfl

/-- Claim C5: for a protected member, the resolver searches the ancestor
chain for the nearest class whose instance type reaches every declaring
class (conjunct 1, via `List.find?`); when no class qualifies and, for
non-static members, no `this`-parameter context qualifies either, it
returns the protected-visibility message naming the left-hand-side type;
with a resolved context, a non-static member whose left-hand-side type does
not reach the context yields the protected-through-instance message, and
otherwise the access is permitted. -/
theorem protectedAccess_check (checker : Checker) (symbol : Symbol) (name : String)
    (node : ElementAccessNode) (lhsType : Ty) (ds : List Declaration)
    (hdecls : symbol.declarations = some ds)
    (hnabs : (getModifierFlagsOfSymbol symbol).isAbstract = false)
    (hnsuper : node.exprKind ≠ .superKeyword)
    (hnpriv : (getModifierFlagsOfSymbol symbol).isPrivate = false)
    (hprot : (getModifierFlagsOfSymbol symbol).isProtected = true) :
    (findEnclosingClass checker (ds.map fun d => d.parent) node.ancestors =
        match node.ancestors.find? (enclosingStops checker (ds.map fun d => d.parent)) with
        | none => none
        | some a => if a.kind == .sourceFile then some none
            else some (some (checker.instanceType a.classDecl.id)))
    ∧ (findEnclosingClass checker (ds.map fun d => d.parent) node.ancestors = some none →
        ((getModifierFlagsOfSymbol symbol).isStatic = true ∨
          getEnclosingClassFromThisParameter checker (ds.map fun d => d.parent) node.ancestors =
            some none) →
        getRestrictedElementAccessError checker symbol name node lhsType =
          some (some (.visibility name lhsType false)))
    ∧ (∀ t, (findEnclosingClass checker (ds.map fun d => d.parent) node.ancestors =
            some (some t) ∨
          (findEnclosingClass checker (ds.map fun d => d.parent) node.ancestors = some none ∧
            (getModifierFlagsOfSymbol symbol).isStatic = false ∧
            getEnclosingClassFromThisParameter checker (ds.map fun d => d.parent)
              node.ancestors = some (some t))) →
        (((getModifierFlagsOfSymbol symbol).isStatic = false ∧
            hasBase lhsType t isIdentical = false) →
          getRestrictedElementAccessError checker symbol name node lhsType =
            some (some (.protectedThroughInstance name t)))
        ∧ (((getModifierFlagsOfSymbol symbol).isStatic = true ∨
            hasBase lhsType t isIdentical = true) →
          getRestrictedElementAccessError checker symbol name node lhsType = some none)) := by
  have hres := getRestricted_eq_visibility checker symbol name node lhsType (Or.inl hnabs) hnsuper
  have hvc := visibilityCheck_protected checker symbol name node lhsType ds hdecls hnpriv hprot
  refine ⟨findEnclosingClass_eq_find checker (ds.map fun d => d.parent) node.ancestors, ?_, ?_⟩
  · intro hfound hor
    rw [hres, hvc, hfound]
    rcases hor with hst | hthis
    · simp [hst, failVisibility]
    · cases hst : (getModifierFlagsOfSymbol symbol).isStatic with
      | true => simp [hst, failVisibility]
      | false => simp [hst, hthis, failVisibility]
  · intro t hsel
    have hcore : getRestrictedElementAccessError checker symbol name node lhsType =
        (if (getModifierFlagsOfSymbol symbol).isStatic = false ∧
            hasBase lhsType t isIdentical = false then
          some (some (.protectedThroughInstance name t))
        else some none) := by
      rcases hsel with hfound | ⟨hfound, hstf, hthis⟩
      · rw [hres, hvc, hfound]
      · rw [hres, hvc, hfound]
        simp [hstf, hthis]
    refine ⟨?_, ?_⟩
    · intro hc
      rw [hcore, if_pos hc]
    · intro hor
      rw [hcore]
      rcases hor with hst | hbase
      · rw [if_neg]
        rintro ⟨hstf, _⟩
        rw [hst] at hstf
        exact absurd hstf (by simp)
      · rw [if_neg]
        rintro ⟨_, hbf⟩
        rw [hbase] at hbf
        exact absurd hbf (by simp)

/-- Fixture: the protected member name. -/
def nameP : String := "q"

/-- Fixture: the declaring class A of the protected member. -/
def clsP : ClassLikeDeclaration := ⟨2, 0, 30⟩

/-- Fixture: the protected property declaration in class A. -/
def declP : Declaration := ⟨.propertyDeclaration, some [.protectedKeyword], clsP⟩

/-- Fixture: the protected member symbol. -/
def symP : Symbol := ⟨some [declP]⟩

/-- Fixture: the instance type of class A, whose symbol declarations
contain the declaration tag of `clsP`. -/
def tyA : Ty := Ty.obj 11 [2] []

/-- Fixture: the instance type of class B extending A. -/
def tyB : Ty := Ty.obj 10 [] [Ty.reference tyA]

/-- Fixture: a checker mapping class 10 to B's instance type. -/
def chkP : Checker := ⟨fun i => if i = 10 then tyB else Ty.obj i [] []⟩

/-- Fixture: an access inside a method of class B. -/
def nodeP : ElementAccessNode :=
  ⟨.other, 40, 45,
    [⟨.methodDeclaration, none, ⟨0, 0, 0⟩, [], false⟩,
     ⟨.classDeclaration, none, ⟨10, 35, 90⟩, [], false⟩,
     ⟨.sourceFile, none, ⟨0, 0, 0⟩, [], false⟩]⟩

/-- Fixture: the left-hand-side type, a reference to B's instance type. -/
def lhsP : Ty := Ty.reference tyB

/-- Witness for claim C5: inside class B (which inherits from the declaring
class A), accessing the protected member on an instance of B is permitted. -/
theorem protectedAccess_check_witness :
    getRestrictedElementAccessError chkP symP nameP nodeP lhsP = some none :=
  ((protectedAccess_check chkP symP nameP nodeP lhsP [declP] rfl rfl (by decide)
      rfl rfl).2.2 tyB (Or.inl rfl)).2 (Or.inr rfl)

/-- Claim C7, amended: in both ancestor walks, a computed property name or
a heritage-clause expression ascends exactly three levels; a decorator
ascends four levels when it decorates a parameter, two levels when it
decorates a class declaration or class expression, and three levels for any
other decorator. -/
theorem ancestorWalk_jumps :
    (∀ (node : NodeInfo) (rest : List NodeInfo),
      (node.kind = .computedPropertyName ∨ node.kind = .expressionWithTypeArguments) →
        isStaticSuper (node :: rest) = isStaticSuper ((node :: rest).drop 3) ∧
        getThisParameterFromContext (node :: rest) =
          getThisParameterFromContext ((node :: rest).drop 3))
    ∧ (∀ (node parent : NodeInfo) (rest2 : List NodeInfo),
      node.kind = .decorator → parent.kind = .parameter →
        isStaticSuper (node :: parent :: rest2) =
          isStaticSuper ((node :: parent :: rest2).drop 4) ∧
        getThisParameterFromContext (node :: parent :: rest2) =
          getThisParameterFromContext ((node :: parent :: rest2).drop 4))
    ∧ (∀ (node parent : NodeInfo) (rest2 : List NodeInfo),
      node.kind = .decorator →
      (parent.kind = .classDeclaration ∨ parent.kind = .classExpression) →
        isStaticSuper (node :: parent :: rest2) =
          isStaticSuper ((node :: parent :: rest2).drop 2) ∧
        getThisParameterFromContext (node :: parent :: rest2) =
          getThisParameterFromContext ((node :: parent :: rest2).drop 2))
    ∧ (∀ (node parent : NodeInfo) (rest2 : List NodeInfo),
      node.kind = .decorator → parent.kind ≠ .parameter →
      parent.kind ≠ .classDeclaration → parent.kind ≠ .classExpression →
        isStaticSuper (node :: parent :: rest2) =
          isStaticSuper ((node :: parent :: rest2).drop 3) ∧
        getThisParameterFromContext (node :: parent :: rest2) =
          getThisParameterFromContext ((node :: parent :: rest2).drop 3)) := by
  refine ⟨?_, ?_, ?_, ?_⟩
  · intro node rest hk
    obtain ⟨k, m, c, p, e⟩ := node
    rcases hk with hk | hk
    · have hk2 : k = SyntaxKind.computedPropertyName := hk
      subst hk2
      rcases rest with _ | ⟨a, _ | ⟨b, r⟩⟩ <;> exact ⟨rfl, rfl⟩
    · have hk2 : k = SyntaxKind.expressionWithTypeArguments := hk
      subst hk2
      rcases rest with _ | ⟨a, _ | ⟨b, r⟩⟩ <;> exact ⟨rfl, rfl⟩
  · intro node parent rest2 hk hp
    obtain ⟨k, m, c, p, e⟩ := node
    obtain ⟨kp, mp, cp, pp, ep⟩ := parent
    have hk2 : k = SyntaxKind.decorator := hk
    subst hk2
    have hp2 : kp = SyntaxKind.parameter := hp
    subst hp2
    rcases rest2 with _ | ⟨a, _ | ⟨b, r⟩⟩ <;> exact ⟨rfl, rfl⟩
  · intro node parent rest2 hk hp
    obtain ⟨k, m, c, p, e⟩ := node
    obtain ⟨kp, mp, cp, pp, ep⟩ := parent
    have hk2 : k = SyntaxKind.decorator := hk
    subst hk2
    rcases hp with hp | hp
    · have hp2 : kp = SyntaxKind.classDeclaration := hp
      subst hp2
      exact ⟨rfl, rfl⟩
    · have hp2 : kp = SyntaxKind.classExpression := hp
      subst hp2
      exact ⟨rfl, rfl⟩
  · intro node parent rest2 hk hp1 hp2 hp3
    obtain ⟨k, m, c, p, e⟩ := node
    obtain ⟨kp, mp, cp, pp, ep⟩ := parent
    have hk2 : k = SyntaxKind.decorator := hk
    subst hk2
    cases kp
    all_goals first
      | exact absurd rfl hp1
      | exact absurd rfl hp2
      | exact absurd rfl hp3
      | (rcases rest2 with _ | ⟨a, r⟩ <;> exact ⟨rfl, rfl⟩)

/-- Fixture: a decorator node. -/
def decoNodeW : NodeInfo := ⟨.decorator, none, ⟨0, 0, 0⟩, [], false⟩

/-- Fixture: a decorated class declaration node. -/
def classNodeW : NodeInfo := ⟨.classDeclaration, none, ⟨7, 0, 0⟩, [], false⟩

/-- Fixture: a static property declaration node. -/
def staticPropNodeW : NodeInfo := ⟨.propertyDeclaration, some [.staticKeyword], ⟨0, 0, 0⟩, [], false⟩

/-- Fixture: a source file node. -/
def srcNodeW : NodeInfo := ⟨.sourceFile, none, ⟨0, 0, 0⟩, [], false⟩

/-- Fixture: a chain starting at a class decorator. -/
def chainC7 : List NodeInfo := [decoNodeW, classNodeW, staticPropNodeW, srcNodeW]

/-- Counterexample to claim C7 as stated: from a decorator whose parent is
a class declaration, the walk resumes two levels up (reaching the static
property, answering `some true`), not three levels up (which runs off the
chain and crashes). -/
theorem decoratorWalk_counterexample :
    isStaticSuper chainC7 = some true ∧ isStaticSuper (chainC7.drop 3) = none :=
  ⟨rfl, rfl⟩

/-- Witness for claim C7 (amended): the class-decorator case ascends two
levels in both walks. -/
theorem ancestorWalk_jumps_witness :
    isStaticSuper (decoNodeW :: classNodeW :: [staticPropNodeW, srcNodeW]) =
      isStaticSuper ((decoNodeW :: classNodeW :: [staticPropNodeW, srcNodeW]).drop 2) ∧
    getThisParameterFromContext (decoNodeW :: classNodeW :: [staticPropNodeW, srcNodeW]) =
      getThisParameterFromContext
        ((decoNodeW :: classNodeW :: [staticPropNodeW, srcNodeW]).drop 2) :=
  ancestorWalk_jumps.2.2.1 decoNodeW classNodeW [staticPropNodeW, srcNodeW] rfl (Or.inl rfl)

/-- Claim C10, amended: for a symbol without a declaration list, the
modifier flags are `None`; the abstract and visibility checks are guarded
by non-zero flags and permit the access, so any access not through `super`
(and any `super` access in a static context) returns `undefined`; but the
`super` block is guarded only by the *absence* of the static flag, which
holds for `None`, so a `super` access outside a static context dereferences
the missing declaration list in `hasNonPrototypeDeclaration` and throws. -/
theorem noDeclarations_flags (checker : Checker) (symbol : Symbol) (name : String)
    (node : ElementAccessNode) (lhsType : Ty)
    (hdecls : symbol.declarations = none) :
    getModifierFlagsOfSymbol symbol = ModifierFlags.noFlags
    ∧ (node.exprKind ≠ .superKeyword →
        getRestrictedElementAccessError checker symbol name node lhsType = some none)
    ∧ (node.exprKind = .superKeyword → isStaticSuper node.chain = some true →
        getRestrictedElementAccessError checker symbol name node lhsType = some none)
    ∧ (node.exprKind = .superKeyword → isStaticSuper node.chain = some false →
        getRestrictedElementAccessError checker symbol name node lhsType = none)
    ∧ (node.exprKind = .superKeyword → isStaticSuper node.chain = none →
        getRestrictedElementAccessError checker symbol name node lhsType = none) := by
  have hflags : getModifierFlagsOfSymbol symbol = ModifierFlags.noFlags := by
    unfold getModifierFlagsOfSymbol
    rw [hdecls]
  have habs0 : (getModifierFlagsOfSymbol symbol).isAbstract = false := by
    rw [hflags]
    rfl
  have hst0 : (getModifierFlagsOfSymbol symbol).isStatic = false := by
    rw [hflags]
    rfl
  have hvc : visibilityCheck checker symbol name node lhsType (getModifierFlagsOfSymbol symbol) =
      some none := by
    have hp : (getModifierFlagsOfSymbol symbol).isPrivate = false ∧
        (getModifierFlagsOfSymbol symbol).isProtected = false :=
      ⟨by rw [hflags]; rfl, by rw [hflags]; rfl⟩
    unfold visibilityCheck
    rw [if_pos hp]
  have hnp : hasNonPrototypeDeclaration symbol = none := by
    unfold hasNonPrototypeDeclaration
    rw [hdecls]
    rfl
  refine ⟨hflags, ?_, ?_, ?_, ?_⟩
  · intro hns
    rw [getRestricted_eq_visibility checker symbol name node lhsType (Or.inl habs0) hns]
    exact hvc
  · intro hsuper hctx
    rw [getRestricted_super checker symbol name node lhsType hsuper]
    have hsc : superCheck checker symbol name node (getModifierFlagsOfSymbol symbol) =
        .fallthrough := by
      unfold superCheck
      rw [if_pos ⟨hsuper, hst0⟩, hctx]
    simp only [hsc]
    exact hvc
  · intro hsuper hctx
    rw [getRestricted_super checker symbol name node lhsType hsuper]
    have hsc : superCheck checker symbol name node (getModifierFlagsOfSymbol symbol) =
        .crash := by
      unfold superCheck
      rw [if_pos ⟨hsuper, hst0⟩, hctx, hnp]
    simp only [hsc]
  · intro hsuper hctx
    rw [getRestricted_super checker symbol name node lhsType hsuper]
    have hsc : superCheck checker symbol name node (getModifierFlagsOfSymbol symbol) =
        .crash := by
      unfold superCheck
      rw [if_pos ⟨hsuper, hst0⟩, hctx]
    simp only [hsc]

/-- Fixture: a symbol without a declaration list. -/
def symN : Symbol := ⟨none⟩

/-- Fixture: a checker mapping every class to a plain object type. -/
def chkN : Checker := ⟨fun i => Ty.obj i [] []⟩

/-- Fixture: the accessed member name. -/
def nameN : String := "n"

/-- Fixture: the left-hand-side type. -/
def lhsN : Ty := Ty.obj 1 [] []

/-- Fixture: a `super` element access inside an instance property
initializer. -/
def nodeN : ElementAccessNode :=
  ⟨.superKeyword, 0, 0,
    [⟨.propertyDeclaration, none, ⟨0, 0, 0⟩, [], false⟩,
     ⟨.classDeclaration, none, ⟨0, 0, 0⟩, [], false⟩,
     ⟨.sourceFile, none, ⟨0, 0, 0⟩, [], false⟩]⟩

/-- Fixture: an ordinary element access at the same position. -/
def nodeN2 : ElementAccessNode :=
  ⟨.other, 0, 0,
    [⟨.propertyDeclaration, none, ⟨0, 0, 0⟩, [], false⟩,
     ⟨.classDeclaration, none, ⟨0, 0, 0⟩, [], false⟩,
     ⟨.sourceFile, none, ⟨0, 0, 0⟩, [], false⟩]⟩

/-- Counterexample to claim C10 as stated: with an absent declaration list,
a `super` access outside a static context does not return `undefined` — the
`super` block, which is not guarded by a non-zero flag, dereferences the
missing declaration list (a thrown `TypeError`, modelled as `none`). -/
theorem noDeclarations_claim_counterexample :
    symN.declarations = none ∧
    getRestrictedElementAccessError chkN symN nameN nodeN lhsN = none :=
  ⟨rfl, rfl⟩

/-- Witness for claim C10 (amended): an access not through `super` with an
absent declaration list is permitted without touching the declarations. -/
theorem noDeclarations_flags_witness :
    getRestrictedElementAccessError chkN symN nameN nodeN2 lhsN = some none :=
  (noDeclarations_flags chkN symN nameN nodeN2 lhsN rfl).2.1 (by decide)

end Wotan
